import Mathlib

/-!
Verification development for the kicad-to-circuit-json converter core.

JavaScript numbers are modelled as rationals (ℚ); the claims settled here
concern control flow, list structure and exact arithmetic, none of which
depend on floating-point rounding.  External library calls with no source
in the repository (Math.cos, Math.sin, Math.atan2, Math.sqrt, Math.PI) are
collected in a `TrigOps` parameter; every theorem quantifies over it, so
nothing proved depends on a particular trigonometry.
-/

/-- A 2-D point, `{x, y}` in the source. -/
structure Pt where
  x : ℚ
  y : ℚ
  deriving DecidableEq

/-- An affine matrix in the `transformation-matrix` package convention. -/
structure Mat where
  a : ℚ
  b : ℚ
  c : ℚ
  d : ℚ
  e : ℚ
  f : ℚ
  deriving DecidableEq

/-- `applyToPoint` of the `transformation-matrix` package:
`{x: a*x + c*y + e, y: b*x + d*y + f}`. -/
def applyToPoint (m : Mat) (p : Pt) : Pt :=
  ⟨m.a * p.x + m.c * p.y + m.e, m.b * p.x + m.d * p.y + m.f⟩

/-- JavaScript truncation toward zero, as used by the `%` operator. -/
def jsTrunc (q : ℚ) : ℤ :=
  if 0 ≤ q then ⌊q⌋ else ⌈q⌉

/-- The JavaScript remainder operator `a % b` (sign follows the dividend). -/
def jsFmod (a b : ℚ) : ℚ :=
  a - b * (jsTrunc (a / b) : ℚ)

/-- `Math.sign`. -/
def jsSign (q : ℚ) : ℚ :=
  if 0 < q then 1 else if q < 0 then -1 else 0

/-- JavaScript `s || dflt` for strings: the empty string is falsy. -/
def jsOrStr (o : Option String) (dflt : String) : String :=
  match o with
  | some s => if s = "" then dflt else s
  | none => dflt

/-- JavaScript `v || dflt` for numbers: `0` is falsy. -/
def jsOrQ (o : Option ℚ) (dflt : ℚ) : ℚ :=
  match o with
  | some v => if v = 0 then dflt else v
  | none => dflt

/-- Does the character list start with the given pattern? -/
def charsStartWith : List Char → List Char → Bool
  | _, [] => true
  | [], _ :: _ => false
  | c :: cs, p :: ps => c = p && charsStartWith cs ps

/-- Does the character list contain the pattern as a contiguous run? -/
def charsContain : List Char → List Char → Bool
  | [], pat => pat.isEmpty
  | c :: cs, pat => charsStartWith (c :: cs) pat || charsContain cs pat

/-- JavaScript `String.prototype.includes` (substring test). -/
def strIncludes (s pat : String) : Bool :=
  charsContain s.data pat.data

/-- The four facing directions returned by `rotationToDirection`. -/
inductive Dir where
  | up
  | down
  | left
  | right
  deriving DecidableEq

/-- `((rotation % 360) + 360) % 360` — the normalization used by
`rotationToDirection` (src/unnamed/part_000). -/
def normalize360 (rotation : ℚ) : ℚ :=
  jsFmod (jsFmod rotation 360 + 360) 360

/-- `rotationToDirection` from src/unnamed/part_000. -/
def rotationToDirection (rotation : ℚ) : Dir :=
  let normalized := normalize360 rotation
  if 315 ≤ normalized ∨ normalized < 45 then .up
  else if 45 ≤ normalized ∧ normalized < 135 then .right
  else if 135 ≤ normalized ∧ normalized < 225 then .down
  else .left

lemma jsFmod_bounds_nonneg (a b : ℚ) (hb : 0 < b) (ha : 0 ≤ a) :
    0 ≤ jsFmod a b ∧ jsFmod a b < b := by
  have hq : 0 ≤ a / b := div_nonneg ha hb.le
  have ht : jsTrunc (a / b) = ⌊a / b⌋ := by simp [jsTrunc, hq]
  have hfr : jsFmod a b = b * Int.fract (a / b) := by
    rw [jsFmod, ht, Int.fract]
    field_simp
  constructor
  · rw [hfr]
    exact mul_nonneg hb.le (Int.fract_nonneg _)
  · rw [hfr]
    calc b * Int.fract (a / b) < b * 1 := by
          exact (mul_lt_mul_left hb).mpr (Int.fract_lt_one _)
      _ = b := mul_one b

lemma jsFmod_bounds_neg (a b : ℚ) (hb : 0 < b) (ha : a < 0) :
    -b < jsFmod a b ∧ jsFmod a b ≤ 0 := by
  have hq : a / b < 0 := div_neg_of_neg_of_pos ha hb
  have ht : jsTrunc (a / b) = ⌈a / b⌉ := by
    simp [jsTrunc, not_le.mpr hq]
  have hceil : (⌈a / b⌉ : ℚ) = -(⌊-(a / b)⌋ : ℚ) := by
    rw [Int.floor_neg]
    push_cast
    ring
  have hfr : jsFmod a b = -(b * Int.fract (-(a / b))) := by
    rw [jsFmod, ht, hceil, Int.fract]
    field_simp
    ring
  constructor
  · rw [hfr]
    have : b * Int.fract (-(a / b)) < b * 1 :=
      (mul_lt_mul_left hb).mpr (Int.fract_lt_one _)
    linarith [this]
  · rw [hfr]
    have : 0 ≤ b * Int.fract (-(a / b)) :=
      mul_nonneg hb.le (Int.fract_nonneg _)
    linarith [this]

lemma normalize360_mem (r : ℚ) :
    0 ≤ normalize360 r ∧ normalize360 r < 360 := by
  have h360 : (0 : ℚ) < 360 := by norm_num
  rcases le_or_lt 0 r with h | h
  · have h1 := jsFmod_bounds_nonneg r 360 h360 h
    exact jsFmod_bounds_nonneg _ 360 h360 (by linarith [h1.1])
  · have h1 := jsFmod_bounds_neg r 360 h360 h
    exact jsFmod_bounds_nonneg _ 360 h360 (by linarith [h1.1])

lemma normalize360_sub (r : ℚ) :
    ∃ m : ℤ, r - normalize360 r = 360 * m := by
  refine ⟨jsTrunc (r / 360) + jsTrunc ((jsFmod r 360 + 360) / 360) - 1, ?_⟩
  simp only [normalize360, jsFmod]
  push_cast
  ring

lemma norm_eq_of_congr (x y : ℚ) (hx0 : 0 ≤ x) (hx1 : x < 360)
    (hy0 : 0 ≤ y) (hy1 : y < 360) (h : ∃ k : ℤ, x - y = 360 * k) :
    x = y := by
  rcases h with ⟨k, hk⟩
  have hlt : ((-1 : ℤ) : ℚ) < (k : ℚ) := by
    rw [show ((-1 : ℤ) : ℚ) = -1 by norm_num]
    nlinarith [hk]
  have hgt : ((k : ℚ)) < ((1 : ℤ) : ℚ) := by
    rw [show ((1 : ℤ) : ℚ) = 1 by norm_num]
    nlinarith [hk]
  have hk0 : k = 0 := by
    have h1 : (-1 : ℤ) < k := by exact_mod_cast hlt
    have h2 : k < 1 := by exact_mod_cast hgt
    omega
  rw [hk0] at hk
  push_cast at hk
  linarith

lemma normalize360_add_int (θ : ℚ) (k : ℤ) :
    normalize360 (θ + 360 * (k : ℚ)) = normalize360 θ := by
  obtain ⟨m1, hm1⟩ := normalize360_sub (θ + 360 * (k : ℚ))
  obtain ⟨m2, hm2⟩ := normalize360_sub θ
  have h1 := normalize360_mem (θ + 360 * (k : ℚ))
  have h2 := normalize360_mem θ
  refine norm_eq_of_congr _ _ h1.1 h1.2 h2.1 h2.2 ⟨k - m1 + m2, ?_⟩
  push_cast
  linarith [hm1, hm2]

lemma normalize360_of_mem (θ : ℚ) (h0 : 0 ≤ θ) (h1 : θ < 360) :
    normalize360 θ = θ := by
  obtain ⟨m, hm⟩ := normalize360_sub θ
  have h := normalize360_mem θ
  exact norm_eq_of_congr _ _ h.1 h.2 h0 h1 ⟨-m, by push_cast; linarith [hm]⟩

/-- C8: `rotationToDirection` is 360-periodic, and on the normalized range it
maps [315,45) to up, [45,135) to right, [135,225) to down and [225,315) to
left. -/
theorem rotationToDirection_periodic_quadrants (θ : ℚ) (k : ℤ) :
    rotationToDirection (θ + 360 * (k : ℚ)) = rotationToDirection θ
      ∧ (0 ≤ θ → θ < 360 →
          ((315 ≤ θ ∨ θ < 45) → rotationToDirection θ = Dir.up)
          ∧ (45 ≤ θ → θ < 135 → rotationToDirection θ = Dir.right)
          ∧ (135 ≤ θ → θ < 225 → rotationToDirection θ = Dir.down)
          ∧ (225 ≤ θ → θ < 315 → rotationToDirection θ = Dir.left)) := by
  constructor
  · simp only [rotationToDirection, normalize360_add_int]
  · intro h0 h1
    simp only [rotationToDirection, normalize360_of_mem θ h0 h1]
    refine ⟨fun h => ?_, fun ha hb => ?_, fun ha hb => ?_, fun ha hb => ?_⟩
    · rw [if_pos h]
    · rw [if_neg (by push_neg; exact ⟨by linarith, by linarith⟩),
        if_pos ⟨ha, hb⟩]
    · rw [if_neg (by push_neg; exact ⟨by linarith, by linarith⟩),
        if_neg (by push_neg; intro; linarith), if_pos ⟨ha, hb⟩]
    · rw [if_neg (by push_neg; exact ⟨by linarith, by linarith⟩),
        if_neg (by push_neg; intro; linarith),
        if_neg (by push_neg; intro; linarith)]

/-- Witness for C8 at θ = 90, k = −2. -/
theorem rotationToDirection_periodic_quadrants_witness :
    rotationToDirection (90 + 360 * ((-2 : ℤ) : ℚ)) = rotationToDirection 90
      ∧ rotationToDirection 90 = Dir.right := by
  refine ⟨(rotationToDirection_periodic_quadrants 90 (-2)).1, ?_⟩
  exact (((rotationToDirection_periodic_quadrants 90 (-2)).2
    (by norm_num) (by norm_num)).2.1) (by norm_num) (by norm_num)

/-!
## Arc tessellation (CollectGraphicsStage.convertArcToPoints /
calculateArcCenter, src/unnamed/part_003)
-/

/-- The mathematical externals of the JavaScript runtime (`Math.cos`,
`Math.sin`, `Math.atan2`, `Math.sqrt`, `Math.PI`), whose source is not part
of this repository.  All theorems quantify over them. -/
structure TrigOps where
  cos : ℚ → ℚ
  sin : ℚ → ℚ
  atan2 : ℚ → ℚ → ℚ
  sqrt : ℚ → ℚ
  pi : ℚ

/-- The perpendicular-bisector determinant
`d = 2 * (ax*(by - cy) + bx*(cy - ay) + cx*(ay - by))` of
`calculateArcCenter`. -/
def arcDet (p1 p2 p3 : Pt) : ℚ :=
  2 * (p1.x * (p2.y - p3.y) + p2.x * (p3.y - p1.y) + p3.x * (p1.y - p2.y))

/-- `calculateArcCenter` (src/unnamed/part_003 lines 466-499): the circle
through three points; `(none, 0)` when the determinant is below 1e-10. -/
def calculateArcCenter (ops : TrigOps) (p1 p2 p3 : Pt) : Option Pt × ℚ :=
  let ax := p1.x
  let ay := p1.y
  let bx := p2.x
  let b_y := p2.y
  let cx := p3.x
  let cy := p3.y
  let d := arcDet p1 p2 p3
  if |d| < 1 / 10 ^ 10 then (none, 0)
  else
    let ux := ((ax * ax + ay * ay) * (b_y - cy) + (bx * bx + b_y * b_y) * (cy - ay)
        + (cx * cx + cy * cy) * (ay - b_y)) / d
    let uy := ((ax * ax + ay * ay) * (cx - bx) + (bx * bx + b_y * b_y) * (ax - cx)
        + (cx * cx + cy * cy) * (bx - ax)) / d
    let radius := ops.sqrt ((ax - ux) ^ 2 + (ay - uy) ^ 2)
    (some ⟨ux, uy⟩, radius)

/-- `convertArcToPoints` (src/unnamed/part_003 lines 408-461): tessellate the
three-point arc; interior samples for `i = 1 .. numSegments - 1`, then the
exact end point. -/
def convertArcToPoints (ops : TrigOps) (start mid end_ : Pt)
    (numSegments : ℕ := 8) : List Pt :=
  match (calculateArcCenter ops start mid end_).1 with
  | none => [start, end_]
  | some center =>
    if (calculateArcCenter ops start mid end_).2 = 0 then [start, end_]
    else
      let radius := (calculateArcCenter ops start mid end_).2
      let startAngle := ops.atan2 (start.y - center.y) (start.x - center.x)
      let endAngle := ops.atan2 (end_.y - center.y) (end_.x - center.x)
      let midAngle := ops.atan2 (mid.y - center.y) (mid.x - center.x)
      let angleRange0 := endAngle - startAngle
      let midFromStart := midAngle - startAngle
      let endFromStart := endAngle - startAngle
      let normalizeMid := jsFmod (midFromStart + ops.pi) (2 * ops.pi) - ops.pi
      let normalizeEnd := jsFmod (endFromStart + ops.pi) (2 * ops.pi) - ops.pi
      let angleRange :=
        if (0 < normalizeEnd ∧ (normalizeMid < 0 ∨ normalizeEnd < normalizeMid))
            ∨ (normalizeEnd < 0 ∧ (0 < normalizeMid ∨ normalizeMid < normalizeEnd)) then
          angleRange0 - jsSign angleRange0 * 2 * ops.pi
        else angleRange0
      let interior := (List.range' 1 (numSegments - 1)).map (fun (i : ℕ) =>
        let t := (i : ℚ) / (numSegments : ℚ)
        let angle := startAngle + angleRange * t
        Pt.mk (center.x + radius * ops.cos angle) (center.y + radius * ops.sin angle))
      interior ++ [end_]

/-- A concrete, fully computable instantiation of the runtime math
externals, used only to evaluate witnesses and counterexamples on concrete
inputs (the claims settled with it do not depend on the numeric values these
functions return). -/
def arcOpsStub : TrigOps where
  cos := fun _ => 0
  sin := fun _ => 0
  atan2 := fun _ _ => 0
  sqrt := fun q => q
  pi := 3

lemma convertArcToPoints_nondegenerate (ops : TrigOps)
    (p1 p2 p3 : Pt) (n : ℕ) (c : Pt) (hn : 1 ≤ n)
    (hc : (calculateArcCenter ops p1 p2 p3).1 = some c)
    (hr : (calculateArcCenter ops p1 p2 p3).2 ≠ 0) :
    (convertArcToPoints ops p1 p2 p3 n).length = n
      ∧ (convertArcToPoints ops p1 p2 p3 n).getLast? = some p3
      ∧ (convertArcToPoints ops p1 p2 p3 n).dropLast.length = n - 1 := by
  unfold convertArcToPoints
  rw [hc]
  simp only [if_neg hr]
  refine ⟨?_, ?_, ?_⟩
  · rw [List.length_append, List.length_map, List.length_range']
    simp only [List.length_singleton]
    omega
  · exact List.getLast?_concat _
  · rw [List.dropLast_concat, List.length_map, List.length_range']

lemma arcCenter_witness_pair :
    calculateArcCenter arcOpsStub ⟨0, 0⟩ ⟨1, 1⟩ ⟨2, 0⟩ = (some ⟨1, 0⟩, 1) := by
  have hd : arcDet ⟨0, 0⟩ ⟨1, 1⟩ ⟨2, 0⟩ = -4 := by
    norm_num [arcDet]
  have hnot : ¬ |arcDet (⟨0, 0⟩ : Pt) ⟨1, 1⟩ ⟨2, 0⟩| < 1 / 10 ^ 10 := by
    rw [hd]; norm_num
  rw [calculateArcCenter]
  simp only [if_neg hnot, hd, arcOpsStub]
  norm_num [Prod.ext_iff, Pt.mk.injEq]

lemma arcCenter_witness_input :
    (calculateArcCenter arcOpsStub ⟨0, 0⟩ ⟨1, 1⟩ ⟨2, 0⟩).1 = some ⟨1, 0⟩
      ∧ (calculateArcCenter arcOpsStub ⟨0, 0⟩ ⟨1, 1⟩ ⟨2, 0⟩).2 = 1 := by
  rw [arcCenter_witness_pair]
  exact ⟨rfl, rfl⟩

/-- C3: when the circumscribed-circle determinant is below 1e-10 (collinear
points), the tessellator returns exactly `[start, end]`. -/
theorem convertArcToPoints_collinear (ops : TrigOps) (p1 p2 p3 : Pt) (n : ℕ)
    (h : |arcDet p1 p2 p3| < 1 / 10 ^ 10) :
    convertArcToPoints ops p1 p2 p3 n = [p1, p3] := by
  have hcc : calculateArcCenter ops p1 p2 p3 = (none, 0) := by
    rw [calculateArcCenter]
    simp only [if_pos h]
  unfold convertArcToPoints
  rw [hcc]

/-- Witness for C3 on the collinear triple (0,0), (1,1), (2,2). -/
theorem convertArcToPoints_collinear_witness :
    |arcDet ⟨0, 0⟩ ⟨1, 1⟩ ⟨2, 2⟩| < 1 / 10 ^ 10
      ∧ convertArcToPoints arcOpsStub ⟨0, 0⟩ ⟨1, 1⟩ ⟨2, 2⟩ 8 = [⟨0, 0⟩, ⟨2, 2⟩] :=
  ⟨by norm_num [arcDet],
    convertArcToPoints_collinear arcOpsStub _ _ _ 8 (by norm_num [arcDet])⟩

/-- C2 (amended): for a non-degenerate arc the tessellator returns
`numSegments - 1` interior samples followed by the exact input end point, a
total of `numSegments` points (8 by default), and the final point is the
input end point itself. -/
theorem convertArcToPoints_count_and_exact_end (ops : TrigOps)
    (p1 p2 p3 : Pt) (n : ℕ) (c : Pt) (hn : 1 ≤ n)
    (hc : (calculateArcCenter ops p1 p2 p3).1 = some c)
    (hr : (calculateArcCenter ops p1 p2 p3).2 ≠ 0) :
    (convertArcToPoints ops p1 p2 p3 n).length = n
      ∧ (convertArcToPoints ops p1 p2 p3 n).getLast? = some p3
      ∧ (convertArcToPoints ops p1 p2 p3 n).dropLast.length = n - 1 :=
  convertArcToPoints_nondegenerate ops p1 p2 p3 n c hn hc hr

/-- Witness for the amended C2 at a concrete non-collinear triple. -/
theorem convertArcToPoints_count_and_exact_end_witness :
    (calculateArcCenter arcOpsStub ⟨0, 0⟩ ⟨1, 1⟩ ⟨2, 0⟩).1 = some ⟨1, 0⟩
      ∧ (calculateArcCenter arcOpsStub ⟨0, 0⟩ ⟨1, 1⟩ ⟨2, 0⟩).2 ≠ 0
      ∧ (convertArcToPoints arcOpsStub ⟨0, 0⟩ ⟨1, 1⟩ ⟨2, 0⟩ 8).length = 8
      ∧ (convertArcToPoints arcOpsStub ⟨0, 0⟩ ⟨1, 1⟩ ⟨2, 0⟩ 8).getLast? = some ⟨2, 0⟩
      ∧ (convertArcToPoints arcOpsStub ⟨0, 0⟩ ⟨1, 1⟩ ⟨2, 0⟩ 8).dropLast.length = 8 - 1 :=
  ⟨arcCenter_witness_input.1,
    by rw [arcCenter_witness_input.2]; norm_num,
    convertArcToPoints_count_and_exact_end arcOpsStub _ _ _ 8 ⟨1, 0⟩
      (by norm_num) arcCenter_witness_input.1
      (by rw [arcCenter_witness_input.2]; norm_num)⟩

/-- Counterexample to C2 as stated: the claim asks for 8 interior samples
plus the end point (9 points at the default count); at a non-collinear
in-domain input the code emits 7 interior samples plus the end point, 8
points in total. -/
theorem convertArcToPoints_eight_interior_cex :
    (1 : ℚ) / 10 ^ 10 ≤ |arcDet ⟨0, 0⟩ ⟨1, 1⟩ ⟨2, 0⟩|
      ∧ (calculateArcCenter arcOpsStub ⟨0, 0⟩ ⟨1, 1⟩ ⟨2, 0⟩).2 ≠ 0
      ∧ (convertArcToPoints arcOpsStub ⟨0, 0⟩ ⟨1, 1⟩ ⟨2, 0⟩ 8).length ≠ 8 + 1
      ∧ (convertArcToPoints arcOpsStub ⟨0, 0⟩ ⟨1, 1⟩ ⟨2, 0⟩ 8).dropLast.length = 7 := by
  have hr : (calculateArcCenter arcOpsStub ⟨0, 0⟩ ⟨1, 1⟩ ⟨2, 0⟩).2 ≠ 0 := by
    rw [arcCenter_witness_input.2]; norm_num
  have h := convertArcToPoints_nondegenerate arcOpsStub ⟨0, 0⟩ ⟨1, 1⟩ ⟨2, 0⟩ 8
    ⟨1, 0⟩ (by norm_num) arcCenter_witness_input.1 hr
  refine ⟨?_, hr, ?_, h.2.2⟩
  · norm_num [arcDet]
  · rw [h.1]
    norm_num

/-!
## Schematic symbol collection (CollectLibrarySymbolsStage,
src/unnamed/part_001 lines 1-217) and its helpers
-/

/-- The `"up" | "right" | "down" | "left"` suffix strings. -/
def dirSuffix : Dir → String
  | .up => "up"
  | .down => "down"
  | .left => "left"
  | .right => "right"

/-- `inferSymbolName`
(src/lib/stages/schematic/utils/inferSymbolName.ts); `none` models the
JavaScript `undefined` returns (including the implicit fall-through). -/
def inferSymbolName (libId reference : String) (rotation : ℚ) : Option String :=
  let lower := libId.toLower
  let direction := rotationToDirection rotation
  if strIncludes lower ":r_" || (strIncludes lower ":r" && reference.startsWith "R") then
    some ("boxresistor_" ++ dirSuffix direction)
  else if strIncludes lower ":c_" || (strIncludes lower ":c" && reference.startsWith "C") then
    if strIncludes lower "polarized" || strIncludes lower "_pol" then
      some ("capacitor_" ++ dirSuffix direction)
    else
      some ("capacitor_" ++ dirSuffix direction)
  else if strIncludes lower ":l_" || (strIncludes lower ":l" && reference.startsWith "L") then
    some ("inductor_" ++ dirSuffix direction)
  else if strIncludes lower ":d_" || strIncludes lower "diode" || reference.startsWith "D" then
    if strIncludes lower "led" then some ("led_" ++ dirSuffix direction)
    else if strIncludes lower "schottky" then some ("schottky_diode_" ++ dirSuffix direction)
    else if strIncludes lower "zener" then some ("zener_diode_" ++ dirSuffix direction)
    else some ("diode_" ++ dirSuffix direction)
  else if strIncludes lower ":q_" || reference.startsWith "Q" then
    if strIncludes lower "npn" then some ("npn_bipolar_transistor_" ++ dirSuffix direction)
    else if strIncludes lower "pnp" then some ("pnp_bipolar_transistor_" ++ dirSuffix direction)
    else if strIncludes lower "_n_" || strIncludes lower "nmos" then
      some ("n_channel_mosfet_transistor_" ++ dirSuffix direction)
    else if strIncludes lower "_p_" || strIncludes lower "pmos" then
      some ("p_channel_mosfet_transistor_" ++ dirSuffix direction)
    else some ("npn_bipolar_transistor_" ++ dirSuffix direction)
  else if strIncludes lower "gnd" || strIncludes lower "ground" then none
  else if strIncludes lower "vcc" || strIncludes lower "vdd" || strIncludes lower "power" then none
  else none

/-- `CollectLibrarySymbolsStage.inferFtype`. -/
def inferFtype (libId reference : String) : String :=
  let lower := libId.toLower
  if strIncludes lower ":r_" || reference.startsWith "R" then "simple_resistor"
  else if strIncludes lower ":c_" || reference.startsWith "C" then "simple_capacitor"
  else if strIncludes lower ":l_" || reference.startsWith "L" then "simple_inductor"
  else if strIncludes lower ":d_" || reference.startsWith "D" then "simple_diode"
  else if strIncludes lower ":led" || reference.startsWith "LED" then "simple_led"
  else if strIncludes lower ":q_" || reference.startsWith "Q" then "simple_transistor"
  else "simple_chip"

/-- A kicadts `at` position (x, y, optional angle). -/
structure At3 where
  x : ℚ
  y : ℚ
  angle : Option ℚ
  deriving DecidableEq

/-- `at?.angle ?? 0`. -/
def atAngle (a : Option At3) : ℚ :=
  match a with
  | some p => p.angle.getD 0
  | none => 0

/-- A symbol property (`{key, value}`). -/
structure SymProperty where
  key : String
  value : String
  deriving DecidableEq

/-- A library-symbol pin: its `_sxAt` position object and its
`_sxNumber?.value ?? pinNumber` number. -/
structure SchPin where
  at_ : Option At3
  number : Option String
  deriving DecidableEq

/-- A sub-symbol of a library symbol (only its pins are consulted). -/
structure SubSymbol where
  pins : List SchPin
  deriving DecidableEq

/-- A library symbol definition.  The JavaScript also accepts a single
non-array pin object and wraps it in an array; lists subsume that. -/
structure LibSymbol where
  libraryId : Option String
  pins : List SchPin
  subSymbols : List SubSymbol
  deriving DecidableEq

/-- A placed schematic symbol. -/
structure SchSymbol where
  uuid : Option String
  libraryId : Option String
  at_ : Option At3
  properties : List SymProperty
  deriving DecidableEq

/-- The parsed schematic tree (fields the stage reads). -/
structure KicadSch where
  symbols : List SchSymbol
  libSymbols : List LibSymbol
  deriving DecidableEq

/-- A `source_component` record (id generated by the store on insert). -/
structure SourceComponent where
  source_component_id : String
  name : String
  ftype : String
  manufacturer_part_number : Option String
  deriving DecidableEq

/-- A `schematic_component` record; `estimateSize` always yields 1×1. -/
structure SchematicComponent where
  schematic_component_id : String
  source_component_id : String
  center : Pt
  width : ℚ
  height : ℚ
  symbol_name : Option String
  deriving DecidableEq

/-- A `schematic_port` record. -/
structure SchematicPort where
  schematic_component_id : String
  center : Pt
  facing_direction : Dir
  pin_number : Option String
  deriving DecidableEq

/-- The stage's context and output store: parsed tree, transform, the
`processedSymbols` set, the record collections, the uuid→component-id map
and the optional `stats.components` counter. -/
structure SchState where
  kicadSch : Option KicadSch
  k2cMatSch : Option Mat
  processedSymbols : List String
  source_components : List SourceComponent
  schematic_components : List SchematicComponent
  schematic_ports : List SchematicPort
  symbolUuidToComponentId : List (String × String)
  statsComponents : Option ℕ
  deriving DecidableEq

/-- `getProperty`: first property with the given key. -/
def getProperty (symbol : SchSymbol) (propName : String) : Option String :=
  (symbol.properties.find? (fun p => p.key == propName)).map (·.value)

/-- JavaScript `Map.prototype.set` on a string-keyed map: update in place
when the key exists, append otherwise. -/
def mapSetS : List (String × String) → String → String → List (String × String)
  | [], k, v => [(k, v)]
  | (k', v') :: rest, k, v =>
    if k' = k then (k, v) :: rest else (k', v') :: mapSetS rest k v

/-- The per-pin body of `createPorts`: rotate the pin offset by the
component rotation, scale by `Math.abs(k2cMatSch.a || 1/15)`, flip Y, and
derive the facing direction from the summed rotations
(`inferPinDirection`).  `none` models the `continue` for a pin without a
position. -/
def portForPin (ops : TrigOps) (m : Mat) (componentId : String)
    (componentRotation : ℚ) (pin : SchPin) : Option SchematicPort :=
  match pin.at_ with
  | none => none
  | some pinAt =>
    let rotRad := componentRotation * ops.pi / 180
    let cosR := ops.cos rotRad
    let sinR := ops.sin rotRad
    let rotatedX := pinAt.x * cosR - pinAt.y * sinR
    let rotatedY := pinAt.x * sinR + pinAt.y * cosR
    let scaleFactor := |jsOrQ (some m.a) (1 / 15)|
    some { schematic_component_id := componentId,
           center := ⟨rotatedX * scaleFactor, -(rotatedY * scaleFactor)⟩,
           facing_direction := rotationToDirection (atAngle pin.at_ + componentRotation),
           pin_number := pin.number }

/-- `CollectLibrarySymbolsStage.createPorts` (src/unnamed/part_001 lines
132-206). -/
def createPorts (ops : TrigOps) (m : Mat) (kicadSch : Option KicadSch)
    (symbol : SchSymbol) (componentId : String)
    (ports : List SchematicPort) : List SchematicPort :=
  let libId := symbol.libraryId
  match ((kicadSch.map (·.libSymbols)).getD []).find? (fun ls => ls.libraryId == libId) with
  | none => ports
  | some libSymbol =>
    let allPins := libSymbol.pins ++ libSymbol.subSymbols.flatMap (·.pins)
    if allPins.isEmpty then ports
    else
      let componentRotation := atAngle symbol.at_
      ports ++ allPins.filterMap (portForPin ops m componentId componentRotation)

/-- `CollectLibrarySymbolsStage.processSymbol` (src/unnamed/part_001 lines
36-92).  Inserted records receive store-generated identifiers
(`<kind>_<index>`); note in particular that the `source_component` insert
does not carry the probed `"<libId>_source"` identifier. -/
def processSymbol (ops : TrigOps) (st : SchState) (symbol : SchSymbol) : SchState :=
  match st.k2cMatSch with
  | none => st
  | some m =>
    let reference := jsOrStr (getProperty symbol "Reference") "U?"
    let value := jsOrStr (getProperty symbol "Value") ""
    let libId := jsOrStr symbol.libraryId ""
    let kicadPos : Pt := ⟨(symbol.at_.map (·.x)).getD 0, (symbol.at_.map (·.y)).getD 0⟩
    let cjPos := applyToPoint m kicadPos
    let rotation := atAngle symbol.at_
    let ftype := inferFtype libId reference
    let sourceComponentId := libId ++ "_source"
    let st1 : SchState :=
      match st.source_components.find? (fun sc => sc.source_component_id == sourceComponentId) with
      | some _ => st
      | none =>
        { st with source_components := st.source_components ++
            [{ source_component_id := "source_component_" ++ toString st.source_components.length,
               name := if libId = "" then reference else libId,
               ftype := ftype,
               manufacturer_part_number := if value = "" then none else some value }] }
    match symbol.uuid with
    | none => st1
    | some uuid =>
      let symbolName := inferSymbolName libId reference rotation
      let componentId := "schematic_component_" ++ toString st1.schematic_components.length
      let st2 := { st1 with schematic_components := st1.schematic_components ++
          [({ schematic_component_id := componentId,
              source_component_id := sourceComponentId,
              center := cjPos, width := 1, height := 1,
              symbol_name := symbolName } : SchematicComponent)] }
      let st3 := { st2 with
        symbolUuidToComponentId := mapSetS st2.symbolUuidToComponentId uuid componentId }
      let st4 := { st3 with
        schematic_ports := createPorts ops m st3.kicadSch symbol componentId st3.schematic_ports }
      { st4 with statsComponents := st4.statsComponents.map (· + 1) }

/-- The symbol loop of `CollectLibrarySymbolsStage.step`: skip symbols with
no uuid or an already-processed uuid, otherwise process and record the
uuid. -/
def processList (ops : TrigOps) (symbols : List SchSymbol) (st : SchState) : SchState :=
  match symbols with
  | [] => st
  | s :: rest =>
    match s.uuid with
    | none => processList ops rest st
    | some uuid =>
      if uuid ∈ st.processedSymbols then processList ops rest st
      else
        let stNew := processSymbol ops st s
        processList ops rest { stNew with processedSymbols := stNew.processedSymbols ++ [uuid] }

/-- `CollectLibrarySymbolsStage.step` (src/unnamed/part_001 lines 16-34):
guard on the parsed tree and transform, loop over symbols, finish. -/
def schStep (ops : TrigOps) (st : SchState) : SchState × Bool :=
  match st.kicadSch, st.k2cMatSch with
  | some sch, some _ => (processList ops sch.symbols st, true)
  | _, _ => (st, true)

lemma processSymbol_preserved (ops : TrigOps) (st : SchState) (s : SchSymbol) :
    (processSymbol ops st s).kicadSch = st.kicadSch
      ∧ (processSymbol ops st s).k2cMatSch = st.k2cMatSch
      ∧ (processSymbol ops st s).processedSymbols = st.processedSymbols := by
  unfold processSymbol
  split
  · exact ⟨rfl, rfl, rfl⟩
  · dsimp only
    split <;> split <;> exact ⟨rfl, rfl, rfl⟩

lemma processList_processed_mono (ops : TrigOps) (l : List SchSymbol)
    (st : SchState) (u : String) (h : u ∈ st.processedSymbols) :
    u ∈ (processList ops l st).processedSymbols := by
  induction l generalizing st with
  | nil => exact h
  | cons s rest ih =>
    cases hu : s.uuid with
    | none =>
      simpa only [processList, hu] using ih st h
    | some u0 =>
      by_cases hmem : u0 ∈ st.processedSymbols
      · simp only [processList, hu, if_pos hmem]
        exact ih st h
      · simp only [processList, hu, if_neg hmem]
        apply ih
        rw [(processSymbol_preserved ops st s).2.2]
        exact List.mem_append.mpr (Or.inl h)

lemma processList_append (ops : TrigOps) (l1 l2 : List SchSymbol) (st : SchState) :
    processList ops (l1 ++ l2) st = processList ops l2 (processList ops l1 st) := by
  induction l1 generalizing st with
  | nil => rfl
  | cons s rest ih =>
    cases hu : s.uuid with
    | none => simp only [List.cons_append, processList, hu]; exact ih st
    | some u0 =>
      by_cases hmem : u0 ∈ st.processedSymbols
      · simp only [List.cons_append, processList, hu, if_pos hmem]
        exact ih st
      · simp only [List.cons_append, processList, hu, if_neg hmem]
        exact ih _

lemma processList_covers (ops : TrigOps) (l : List SchSymbol) (st : SchState)
    (s : SchSymbol) (u : String) (hs : s ∈ l) (hu : s.uuid = some u) :
    u ∈ (processList ops l st).processedSymbols := by
  induction l generalizing st with
  | nil => cases hs
  | cons s0 rest ih =>
    rcases List.mem_cons.mp hs with heq | hmem
    · have hu0 : s0.uuid = some u := heq ▸ hu
      by_cases hm : u ∈ st.processedSymbols
      · simp only [processList, hu0, if_pos hm]
        exact processList_processed_mono ops rest st u hm
      · simp only [processList, hu0, if_neg hm]
        apply processList_processed_mono
        rw [(processSymbol_preserved ops st s0).2.2]
        exact List.mem_append.mpr (Or.inr (List.mem_singleton.mpr rfl))
    · cases hu0 : s0.uuid with
      | none => simp only [processList, hu0]; exact ih st hmem
      | some v =>
        by_cases hm : v ∈ st.processedSymbols
        · simp only [processList, hu0, if_pos hm]
          exact ih st hmem
        · simp only [processList, hu0, if_neg hm]
          exact ih _ hmem

lemma processList_skip_all (ops : TrigOps) (l : List SchSymbol) (st : SchState)
    (h : ∀ s ∈ l, ∀ u, s.uuid = some u → u ∈ st.processedSymbols) :
    processList ops l st = st := by
  induction l with
  | nil => rfl
  | cons s0 rest ih =>
    cases hu0 : s0.uuid with
    | none =>
      simp only [processList, hu0]
      exact ih (fun s hs u hu => h s (List.mem_cons_of_mem s0 hs) u hu)
    | some v =>
      have hm : v ∈ st.processedSymbols := h s0 (List.mem_cons_self s0 rest) v hu0
      simp only [processList, hu0, if_pos hm]
      exact ih (fun s hs u hu => h s (List.mem_cons_of_mem s0 hs) u hu)

lemma processList_preserved_inputs (ops : TrigOps) (l : List SchSymbol) (st : SchState) :
    (processList ops l st).kicadSch = st.kicadSch
      ∧ (processList ops l st).k2cMatSch = st.k2cMatSch := by
  induction l generalizing st with
  | nil => exact ⟨rfl, rfl⟩
  | cons s rest ih =>
    cases hu : s.uuid with
    | none => simp only [processList, hu]; exact ih st
    | some u0 =>
      by_cases hmem : u0 ∈ st.processedSymbols
      · simp only [processList, hu, if_pos hmem]; exact ih st
      · simp only [processList, hu, if_neg hmem]
        refine ⟨?_, ?_⟩
        · rw [(ih _).1]
          exact (processSymbol_preserved ops st s).1
        · rw [(ih _).2]
          exact (processSymbol_preserved ops st s).2.1

lemma processList_cons_skip (ops : TrigOps) (s : SchSymbol) (l : List SchSymbol)
    (st : SchState) (u : String) (hu : s.uuid = some u)
    (hmem : u ∈ st.processedSymbols) :
    processList ops (s :: l) st = processList ops l st := by
  simp only [processList, hu, if_pos hmem]

lemma processSymbol_adds_one (ops : TrigOps) (st : SchState) (s : SchSymbol)
    (u : String) (m : Mat) (hu : s.uuid = some u) (hm : st.k2cMatSch = some m) :
    (processSymbol ops st s).schematic_components.length
      = st.schematic_components.length + 1 := by
  unfold processSymbol
  rw [hm]
  dsimp only
  split
  · next heq =>
    rw [heq] at hu
    cases hu
  · next uuid heq =>
    split <;> simp

/-- C4: re-processing the same source symbol (same source-native uuid) in
one run is idempotent.  Running `step()` a second time changes nothing; a
duplicate occurrence of the symbol inside one step's symbol list has no
effect at all (so neither the schematic-component collection nor the
source-component collection receives a duplicate record for it); and a
single processing of a fresh symbol inserts exactly one
schematic-component record. -/
theorem symbol_reprocessing_idempotent (ops : TrigOps) (st : SchState)
    (pre mid post : List SchSymbol) (s : SchSymbol) (u : String) (m : Mat)
    (hu : s.uuid = some u) (hnew : u ∉ st.processedSymbols)
    (hm : st.k2cMatSch = some m) :
    (schStep ops (schStep ops st).1).1 = (schStep ops st).1
      ∧ processList ops (pre ++ s :: (mid ++ s :: post)) st
          = processList ops (pre ++ s :: (mid ++ post)) st
      ∧ (processList ops [s] st).schematic_components.length
          = st.schematic_components.length + 1 := by
  refine ⟨?_, ?_, ?_⟩
  · cases hk : st.kicadSch with
    | none => simp only [schStep, hk]
    | some sch =>
      have h1 : schStep ops st = (processList ops sch.symbols st, true) := by
        simp only [schStep, hk, hm]
      rw [h1]
      have hpre := processList_preserved_inputs ops sch.symbols st
      have hk1 : (processList ops sch.symbols st).kicadSch = some sch :=
        hpre.1.trans hk
      have hm1 : (processList ops sch.symbols st).k2cMatSch = some m :=
        hpre.2.trans hm
      have h2 : schStep ops (processList ops sch.symbols st)
          = (processList ops sch.symbols (processList ops sch.symbols st), true) := by
        simp only [schStep, hk1, hm1]
      show (schStep ops (processList ops sch.symbols st)).1
          = processList ops sch.symbols st
      rw [h2]
      exact processList_skip_all ops sch.symbols _
        (fun s2 hs2 u2 hu2 => processList_covers ops sch.symbols st s2 u2 hs2 hu2)
  · have humem : u ∈ (processList ops mid
        (processList ops (pre ++ [s]) st)).processedSymbols :=
      processList_processed_mono _ _ _ _
        (processList_covers ops (pre ++ [s]) st s u (by simp) hu)
    have step1 : ∀ Y : List SchSymbol,
        processList ops ((pre ++ [s]) ++ Y) st
          = processList ops Y (processList ops (pre ++ [s]) st) :=
      fun Y => processList_append ops (pre ++ [s]) Y st
    have step2 : ∀ (Z : List SchSymbol) (stx : SchState),
        processList ops (mid ++ Z) stx = processList ops Z (processList ops mid stx) :=
      fun Z stx => processList_append ops mid Z stx
    calc processList ops (pre ++ s :: (mid ++ s :: post)) st
        = processList ops ((pre ++ [s]) ++ (mid ++ s :: post)) st := by
          rw [show pre ++ s :: (mid ++ s :: post)
              = (pre ++ [s]) ++ (mid ++ s :: post) by simp]
      _ = processList ops (mid ++ s :: post) (processList ops (pre ++ [s]) st) :=
          step1 _
      _ = processList ops (s :: post)
            (processList ops mid (processList ops (pre ++ [s]) st)) := step2 _ _
      _ = processList ops post
            (processList ops mid (processList ops (pre ++ [s]) st)) :=
          processList_cons_skip ops s post _ u hu humem
      _ = processList ops (mid ++ post) (processList ops (pre ++ [s]) st) :=
          (step2 _ _).symm
      _ = processList ops ((pre ++ [s]) ++ (mid ++ post)) st := (step1 _).symm
      _ = processList ops (pre ++ s :: (mid ++ post)) st := by
          rw [show pre ++ s :: (mid ++ post) = (pre ++ [s]) ++ (mid ++ post) by simp]
  · simp only [processList, hu, if_neg hnew]
    exact processSymbol_adds_one ops st s u m hu hm

/-- A runtime-math stub whose sine is constantly 1 (used for witnesses that
need `sin(90°) = 1`, `cos(90°) = 0`). -/
def trigOps90 : TrigOps where
  cos := fun _ => 0
  sin := fun _ => 1
  atan2 := fun _ _ => 0
  sqrt := fun q => q
  pi := 3

/-- Concrete symbol for the C4 witness. -/
def symbolW : SchSymbol :=
  { uuid := some "u0", libraryId := some "Device:R", at_ := some ⟨0, 0, some 0⟩,
    properties := [] }

/-- Concrete schematic tree for the C4 witness. -/
def kicadSchW : KicadSch :=
  { symbols := [symbolW], libSymbols := [] }

/-- Identity-scale transform used by witnesses. -/
def matW : Mat := ⟨1, 0, 0, 1, 0, 0⟩

/-- Concrete stage state for the C4 witness. -/
def schStateW : SchState :=
  { kicadSch := some kicadSchW, k2cMatSch := some matW, processedSymbols := [],
    source_components := [], schematic_components := [], schematic_ports := [],
    symbolUuidToComponentId := [], statsComponents := none }

/-- Witness for C4 at a concrete one-symbol state. -/
theorem symbol_reprocessing_idempotent_witness :
    (schStep arcOpsStub (schStep arcOpsStub schStateW).1).1
        = (schStep arcOpsStub schStateW).1
      ∧ processList arcOpsStub ([] ++ symbolW :: ([] ++ symbolW :: [])) schStateW
          = processList arcOpsStub ([] ++ symbolW :: ([] ++ [])) schStateW
      ∧ (processList arcOpsStub [symbolW] schStateW).schematic_components.length
          = schStateW.schematic_components.length + 1 :=
  symbol_reprocessing_idempotent arcOpsStub schStateW [] [] [] symbolW "u0" matW
    rfl (by simp [schStateW]) rfl

lemma rotationToDirection_ninety : rotationToDirection 90 = Dir.right := by
  simp only [rotationToDirection, normalize360_of_mem 90 (by norm_num) (by norm_num)]
  norm_num

lemma createPorts_single_pin (ops : TrigOps) (m : Mat) (sch : KicadSch)
    (symbol : SchSymbol) (componentId : String) (ports : List SchematicPort)
    (libSymbol : LibSymbol) (pin : SchPin) (pinAt : At3)
    (hfind : sch.libSymbols.find? (fun ls => ls.libraryId == symbol.libraryId)
      = some libSymbol)
    (hpins : libSymbol.pins = [pin]) (hsubs : libSymbol.subSymbols = [])
    (hat : pin.at_ = some pinAt) (hma : m.a ≠ 0) :
    createPorts ops m (some sch) symbol componentId ports
      = ports ++ [(⟨componentId,
          ⟨abs m.a * (pinAt.x * ops.cos (atAngle symbol.at_ * ops.pi / 180)
              - pinAt.y * ops.sin (atAngle symbol.at_ * ops.pi / 180)),
            -(abs m.a * (pinAt.x * ops.sin (atAngle symbol.at_ * ops.pi / 180)
              + pinAt.y * ops.cos (atAngle symbol.at_ * ops.pi / 180)))⟩,
          rotationToDirection (atAngle pin.at_ + atAngle symbol.at_),
          pin.number⟩ : SchematicPort)] := by
  unfold createPorts
  simp only [Option.map_some', Option.getD_some]
  rw [hfind]
  simp only [hpins, hsubs, List.flatMap_nil, List.append_nil, List.isEmpty_cons,
    Bool.false_eq_true, if_false]
  simp only [List.filterMap_cons, List.filterMap_nil]
  unfold portForPin
  rw [hat]
  simp only [jsOrQ, hma, if_false]
  have hrepl : ∀ A B : SchematicPort, A = B → ports ++ [A] = ports ++ [B] :=
    fun A B h => by rw [h]
  apply hrepl
  simp only [SchematicPort.mk.injEq, Pt.mk.injEq]
  refine ⟨trivial, ⟨by ring, by ring⟩, trivial, trivial⟩

/-- C7: the emitted schematic-port center is the pin's local offset rotated
by the component rotation θ (radians = θ·π/180), scaled by the magnitude of
the transform's scale coefficient `a`, with the rotated Y negated; and in
particular rotation 90° with offset (1,0) under a unit-magnitude transform
emits center (0,−1) and facing direction right. -/
theorem schematic_port_rotation_spec :
    (∀ (ops : TrigOps) (m : Mat) (sch : KicadSch) (symbol : SchSymbol)
        (componentId : String) (ports : List SchematicPort)
        (libSymbol : LibSymbol) (pin : SchPin) (pinAt : At3),
      sch.libSymbols.find? (fun ls => ls.libraryId == symbol.libraryId)
          = some libSymbol →
      libSymbol.pins = [pin] → libSymbol.subSymbols = [] →
      pin.at_ = some pinAt → m.a ≠ 0 →
      createPorts ops m (some sch) symbol componentId ports
        = ports ++ [(⟨componentId,
            ⟨abs m.a * (pinAt.x * ops.cos (atAngle symbol.at_ * ops.pi / 180)
                - pinAt.y * ops.sin (atAngle symbol.at_ * ops.pi / 180)),
              -(abs m.a * (pinAt.x * ops.sin (atAngle symbol.at_ * ops.pi / 180)
                + pinAt.y * ops.cos (atAngle symbol.at_ * ops.pi / 180)))⟩,
            rotationToDirection (atAngle pin.at_ + atAngle symbol.at_),
            pin.number⟩ : SchematicPort)])
    ∧ (∀ (ops : TrigOps) (m : Mat) (sch : KicadSch) (symbol : SchSymbol)
        (componentId : String) (libSymbol : LibSymbol) (pin : SchPin),
      sch.libSymbols.find? (fun ls => ls.libraryId == symbol.libraryId)
          = some libSymbol →
      libSymbol.pins = [pin] → libSymbol.subSymbols = [] →
      pin.at_ = some ⟨1, 0, some 0⟩ →
      symbol.at_ = some ⟨0, 0, some 90⟩ →
      m.a = 1 →
      ops.cos (90 * ops.pi / 180) = 0 →
      ops.sin (90 * ops.pi / 180) = 1 →
      createPorts ops m (some sch) symbol componentId []
        = [(⟨componentId, ⟨0, -1⟩, Dir.right, pin.number⟩ : SchematicPort)]) := by
  constructor
  · intro ops m sch symbol componentId ports libSymbol pin pinAt hfind hpins hsubs hat hma
    exact createPorts_single_pin ops m sch symbol componentId ports libSymbol pin pinAt
      hfind hpins hsubs hat hma
  · intro ops m sch symbol componentId libSymbol pin hfind hpins hsubs hat hsym hma hcos hsin
    rw [createPorts_single_pin ops m sch symbol componentId [] libSymbol pin
      ⟨1, 0, some 0⟩ hfind hpins hsubs hat (by rw [hma]; norm_num)]
    have hang : atAngle symbol.at_ = 90 := by rw [hsym]; rfl
    have hpang : atAngle pin.at_ = 0 := by rw [hat]; rfl
    rw [List.nil_append]
    simp only [hang, hpang, hma, hcos, hsin]
    norm_num [rotationToDirection_ninety]

/-- Concrete pin for the C7 witness: local offset (1,0), local angle 0. -/
def pinW : SchPin := { at_ := some ⟨1, 0, some 0⟩, number := some "1" }

/-- Concrete library symbol for the C7 witness. -/
def libSymW : LibSymbol :=
  { libraryId := some "Device:R", pins := [pinW], subSymbols := [] }

/-- Concrete placed symbol rotated 90° for the C7 witness. -/
def symbolW90 : SchSymbol :=
  { uuid := some "u1", libraryId := some "Device:R", at_ := some ⟨0, 0, some 90⟩,
    properties := [] }

/-- Concrete schematic tree for the C7 witness. -/
def kicadSchW90 : KicadSch := { symbols := [symbolW90], libSymbols := [libSymW] }

/-- Witness for C7: both the general formula and the 90° example evaluated
at a concrete one-pin symbol. -/
theorem schematic_port_rotation_spec_witness :
    (createPorts trigOps90 matW (some kicadSchW90) symbolW90 "c0" []
        = [] ++ [(⟨"c0",
            ⟨abs matW.a * (1 * trigOps90.cos (atAngle symbolW90.at_ * trigOps90.pi / 180)
                - 0 * trigOps90.sin (atAngle symbolW90.at_ * trigOps90.pi / 180)),
              -(abs matW.a * (1 * trigOps90.sin (atAngle symbolW90.at_ * trigOps90.pi / 180)
                + 0 * trigOps90.cos (atAngle symbolW90.at_ * trigOps90.pi / 180)))⟩,
            rotationToDirection (atAngle pinW.at_ + atAngle symbolW90.at_),
            pinW.number⟩ : SchematicPort)])
      ∧ createPorts trigOps90 matW (some kicadSchW90) symbolW90 "c0" []
          = [(⟨"c0", ⟨0, -1⟩, Dir.right, some "1"⟩ : SchematicPort)] :=
  ⟨schematic_port_rotation_spec.1 trigOps90 matW kicadSchW90 symbolW90 "c0" []
      libSymW pinW ⟨1, 0, some 0⟩ rfl rfl rfl rfl (by norm_num [matW]),
    schematic_port_rotation_spec.2 trigOps90 matW kicadSchW90 symbolW90 "c0"
      libSymW pinW rfl rfl rfl rfl rfl rfl rfl rfl⟩

/-!
## PCB-side data model (kicadts fields the stages read) and output records
-/

/-- A net-table entry; `id` models the `_id ?? number ?? ordinal` chain
(`none` when all are absent, which the code defaults to 0), `name` models
`_name ?? name` (`none` when absent; an empty string is kept). -/
structure NetEntry where
  id : Option Int
  name : Option String
  deriving DecidableEq

/-- A pad `at` position (x, y, optional angle). -/
structure PadAt where
  x : ℚ
  y : ℚ
  angle : Option ℚ
  deriving DecidableEq

/-- A pad `drill`: either a bare number or an object with optional
`diameter`/`x`/`y`. -/
inductive DrillSpec where
  | num (v : ℚ)
  | obj (diameter x y : Option ℚ)
  deriving DecidableEq

/-- A footprint pad.  `number` is `pad.number?.toString()` (`none` when the
pad has no number); `net` is the numeric net id extracted by `getPadNet`
from the `_sxNet`/`net` field (`none` when absent or not extractable);
`padTypeF`/`typeF` model `pad.padType`/`pad.type`; `sizeW`/`sizeH` model the
two size components of the array/object forms; `primPolys` holds the point
lists of the `gr_poly` primitives of a custom pad (one list per
primitive, contours concatenated). -/
structure FpPad where
  number : Option String
  net : Option Int
  at_ : Option PadAt
  padTypeF : Option String
  typeF : Option String
  shape : Option String
  sizeW : Option ℚ
  sizeH : Option ℚ
  drill : Option DrillSpec
  roundrectRatio : Option ℚ
  layers : List String
  primPolys : List (List Pt)
  deriving DecidableEq

/-- A footprint property (`key`/`name` merged into `key`). -/
structure FpProperty where
  key : String
  value : String
  deriving DecidableEq

/-- An `fp_text` item (its `type` tag and text). -/
structure FpText where
  typ : String
  text : String
  deriving DecidableEq

/-- A PCB footprint; `uuid` models `uuid?.value || tstamp?.value` (`none`
when both are absent/empty). -/
structure Footprint where
  uuid : Option String
  fpPads : List FpPad
  properties : List FpProperty
  fpTexts : List FpText
  deriving DecidableEq

/-- A via. -/
structure Via where
  at_ : Option Pt
  size : Option ℚ
  drill : Option ℚ
  net : Option Int
  layers : List String
  deriving DecidableEq

/-- A `gr_line`; `layer` is the list of layer names. -/
structure GrLine where
  layer : List String
  start : Option Pt
  end_ : Option Pt
  width : Option ℚ
  deriving DecidableEq

/-- A `gr_rect`; `filled` models the `_sxFill` fill-yes test. -/
structure GrRect where
  start : Option Pt
  end_ : Option Pt
  layer : List String
  filled : Bool
  deriving DecidableEq

/-- A point entry of a `gr_poly`: a plain `xy` or a three-point `arc`. -/
inductive PolyPt where
  | xy (x y : ℚ)
  | arc (start mid end_ : Pt)
  deriving DecidableEq

/-- A `gr_poly`; `filled` models `_sxFill?.filled === true`. -/
structure GrPoly where
  layer : List String
  filled : Bool
  pts : List PolyPt
  deriving DecidableEq

/-- A `gr_text`; `at_` models `at || _sxPosition`, `fontHeight` the
`_sxEffects…_height || effects…y` chain and `text` the `text || _text`
chain. -/
structure GrText where
  layer : List String
  at_ : Option Pt
  fontHeight : Option ℚ
  text : Option String
  deriving DecidableEq

/-- The parsed PCB tree (fields the stages read). -/
structure KicadPcb where
  footprints : List Footprint
  nets : List NetEntry
  vias : List Via
  graphicLines : List GrLine
  graphicRects : List GrRect
  graphicPolys : List GrPoly
  graphicTexts : List GrText
  deriving DecidableEq

/-- A `source_port` record. -/
structure SourcePort where
  source_port_id : String
  source_component_id : String
  name : String
  pin_number : Option Int
  deriving DecidableEq

/-- A `source_trace` record. -/
structure SourceTrace where
  connected_source_port_ids : List String
  connected_source_net_ids : List String
  display_name : String
  deriving DecidableEq

/-- A `pcb_via` record. -/
structure PcbVia where
  x : ℚ
  y : ℚ
  outer_diameter : ℚ
  hole_diameter : ℚ
  layers : List String
  deriving DecidableEq

/-- A `pcb_board` record. -/
structure PcbBoard where
  outline : List Pt
  width : ℚ
  height : ℚ
  deriving DecidableEq

/-- A `pcb_silkscreen_path` record. -/
structure SilkPath where
  pcb_component_id : String
  layer : String
  route : List Pt
  stroke_width : ℚ
  deriving DecidableEq

/-- A `pcb_silkscreen_text` record. -/
structure SilkText where
  pcb_component_id : String
  text : String
  anchor_position : Pt
  layer : String
  font_size : ℚ
  font : String
  deriving DecidableEq

/-- A `pcb_smtpad` record (the JavaScript object is a field bag across the
rect/circle/polygon variants; absent fields are `none`). -/
structure Smtpad where
  pcb_component_id : String
  shape : String
  layer : Option String
  port_hints : List (Option String)
  x : Option ℚ
  y : Option ℚ
  width : Option ℚ
  height : Option ℚ
  radius : Option ℚ
  corner_radius : Option ℚ
  points : Option (List Pt)
  deriving DecidableEq

/-- A `pcb_plated_hole` record (field bag; unset shape keys stay `none`). -/
structure PlatedHole where
  pcb_component_id : String
  x : ℚ
  y : ℚ
  port_hints : List (Option String)
  shape : Option String
  hole_diameter : Option ℚ
  outer_diameter : Option ℚ
  hole_width : Option ℚ
  hole_height : Option ℚ
  outer_width : Option ℚ
  outer_height : Option ℚ
  hole_shape : Option String
  pad_shape : Option String
  rect_pad_width : Option ℚ
  rect_pad_height : Option ℚ
  layers : List String
  deriving DecidableEq

/-- A `pcb_hole` record.  `hole_diameter` is `none` when the source's
`drill?.diameter || drill || 1.0` chain falls through to the drill object
itself (a non-numeric value stored as-is). -/
structure PcbHole where
  x : ℚ
  y : ℚ
  hole_diameter : Option ℚ
  hole_shape : String
  deriving DecidableEq

/-- A `pcb_port` record. -/
structure PcbPort where
  pcb_component_id : String
  source_port_id : String
  x : ℚ
  y : ℚ
  layers : List String
  deriving DecidableEq

/-- The optional run statistics counters. -/
structure Stats where
  pads : ℕ
  traces : ℕ
  vias : ℕ
  deriving DecidableEq

/-- The shared PCB context and output store. -/
structure PcbState where
  kicadPcb : Option KicadPcb
  k2cMatPcb : Option Mat
  netNumToName : Option (List (Int × String))
  footprintUuidToComponentId : List (String × String)
  footprintUuidToSourceComponentId : List (String × String)
  processedNets : List Int
  source_ports : List SourcePort
  source_traces : List SourceTrace
  pcb_vias : List PcbVia
  pcb_boards : List PcbBoard
  pcb_silkscreen_paths : List SilkPath
  pcb_silkscreen_texts : List SilkText
  pcb_smtpads : List Smtpad
  pcb_plated_holes : List PlatedHole
  pcb_holes : List PcbHole
  pcb_ports : List PcbPort
  stats : Option Stats
  deriving DecidableEq

/-- JavaScript `Map.set` on an integer-keyed map. -/
def mapSetI : List (Int × String) → Int → String → List (Int × String)
  | [], k, v => [(k, v)]
  | (k', v') :: rest, k, v =>
    if k' = k then (k, v) :: rest else (k', v') :: mapSetI rest k v

/-- JavaScript `Map.get` on an integer-keyed map. -/
def mapGetI (m : List (Int × String)) (k : Int) : Option String :=
  (m.find? (fun e => e.1 == k)).map (·.2)

/-- JavaScript `Map.has` on an integer-keyed map. -/
def mapHasI (m : List (Int × String)) (k : Int) : Bool :=
  (mapGetI m k).isSome

/-- JavaScript `Map.get` on a string-keyed map. -/
def mapGetS (m : List (String × String)) (k : String) : Option String :=
  (m.find? (fun e => e.1 == k)).map (·.2)

/-!
## CollectNetsStage (src/lib/stages/pcb/CollectFootprintsStage/process-ports.ts
lines 39-76 of the combined file)
-/

/-- The net loop of `CollectNetsStage.step`: store
`netNum → (name ?? Net-<netNum>)` for every net-table entry. -/
def buildNetMap (nets : List NetEntry) (acc : List (Int × String)) : List (Int × String) :=
  match nets with
  | [] => acc
  | net :: rest =>
    let netNum := net.id.getD 0
    let netName := net.name.getD ("Net-" ++ toString netNum)
    buildNetMap rest (mapSetI acc netNum netName)

/-- `CollectNetsStage.step`: guard, the net loop, then seed net 0 with the
empty name when no entry claimed key 0. -/
def netsStep (st : PcbState) : PcbState × Bool :=
  match st.kicadPcb, st.netNumToName with
  | some pcb, some m0 =>
    let m1 := buildNetMap pcb.nets m0
    let m2 := if mapHasI m1 0 then m1 else mapSetI m1 0 ""
    ({ st with netNumToName := some m2 }, true)
  | _, _ => (st, true)

lemma mapGetI_cons (k0 : Int) (v0 : String) (l : List (Int × String)) (k : Int) :
    mapGetI ((k0, v0) :: l) k = if k0 = k then some v0 else mapGetI l k := by
  by_cases h : k0 = k
  · simp only [mapGetI, if_pos h]
    rw [List.find?_cons_of_pos _ (by simpa using h)]
    rfl
  · simp only [mapGetI, if_neg h]
    rw [List.find?_cons_of_neg _ (by simpa using h)]

lemma mapGetI_set_self (m : List (Int × String)) (k : Int) (v : String) :
    mapGetI (mapSetI m k v) k = some v := by
  induction m with
  | nil => simp [mapSetI, mapGetI_cons]
  | cons e rest ih =>
    rcases e with ⟨k0, v0⟩
    by_cases h : k0 = k
    · subst h
      simp [mapSetI, mapGetI_cons]
    · simp only [mapSetI, if_neg h, mapGetI_cons, if_neg h]
      exact ih

lemma mapGetI_set_ne (m : List (Int × String)) (k k' : Int) (v : String)
    (h : k' ≠ k) : mapGetI (mapSetI m k v) k' = mapGetI m k' := by
  have hk : k ≠ k' := fun he => h he.symm
  induction m with
  | nil => simp [mapSetI, mapGetI_cons, if_neg hk, mapGetI]
  | cons e rest ih =>
    rcases e with ⟨k0, v0⟩
    by_cases h0 : k0 = k
    · subst h0
      simp [mapSetI, mapGetI_cons, if_neg hk]
    · simp only [mapSetI, if_neg h0, mapGetI_cons]
      by_cases h1 : k0 = k'
      · simp only [if_pos h1]
      · simp only [if_neg h1]
        exact ih

lemma buildNetMap_get_absent (nets : List NetEntry) :
    ∀ (acc : List (Int × String)) (k : Int),
      (∀ net ∈ nets, net.id.getD 0 ≠ k) →
      mapGetI (buildNetMap nets acc) k = mapGetI acc k := by
  induction nets with
  | nil => intro acc k _; rfl
  | cons net rest ih =>
    intro acc k h
    simp only [buildNetMap]
    rw [ih _ _ (fun n hn => h n (List.mem_cons_of_mem net hn)),
      mapGetI_set_ne _ _ _ _ (fun he => h net (List.mem_cons_self net rest) he.symm)]

lemma buildNetMap_get_mem (nets : List NetEntry) :
    ∀ (acc : List (Int × String)) (net : NetEntry), net ∈ nets →
      (nets.map (fun n => n.id.getD 0)).Nodup →
      mapGetI (buildNetMap nets acc) (net.id.getD 0)
        = some (net.name.getD ("Net-" ++ toString (net.id.getD 0))) := by
  induction nets with
  | nil => intro acc net h; cases h
  | cons n0 rest ih =>
    intro acc net hmem hnd
    rw [List.map_cons, List.nodup_cons] at hnd
    rcases List.mem_cons.mp hmem with heq | htail
    · subst heq
      simp only [buildNetMap]
      have habs : ∀ n ∈ rest, n.id.getD 0 ≠ net.id.getD 0 := by
        intro n hn he
        exact hnd.1 (List.mem_map.mpr ⟨n, hn, he⟩)
      rw [buildNetMap_get_absent rest _ _ habs, mapGetI_set_self]
    · simp only [buildNetMap]
      exact ih _ net htail hnd.2

/-- C6 (amended): after the net-naming pass (run on a fresh map, with
distinct source net ids), every entry with a source-provided name maps to
that name, every entry without a name maps to `Net-<id>`, and net id 0 maps
to the empty placeholder exactly when no source entry claims id 0 (an
unnamed source entry with id 0 instead maps to the auto-generated
`Net-0`). -/
theorem net_naming_spec (st : PcbState) (pcb : KicadPcb)
    (hp : st.kicadPcb = some pcb) (hm : st.netNumToName = some [])
    (hnd : (pcb.nets.map (fun n => n.id.getD 0)).Nodup) :
    (∀ net ∈ pcb.nets, ∀ s, net.name = some s →
        mapGetI (((netsStep st).1.netNumToName).getD []) (net.id.getD 0) = some s)
      ∧ (∀ net ∈ pcb.nets, net.name = none →
          mapGetI (((netsStep st).1.netNumToName).getD []) (net.id.getD 0)
            = some ("Net-" ++ toString (net.id.getD 0)))
      ∧ ((∀ net ∈ pcb.nets, net.id.getD 0 ≠ 0) →
          mapGetI (((netsStep st).1.netNumToName).getD []) 0 = some "") := by
  have hstep : (netsStep st).1.netNumToName
      = some (if mapHasI (buildNetMap pcb.nets []) 0 then buildNetMap pcb.nets []
          else mapSetI (buildNetMap pcb.nets []) 0 "") := by
    simp only [netsStep, hp, hm]
  have hgen : ∀ net ∈ pcb.nets,
      mapGetI (((netsStep st).1.netNumToName).getD []) (net.id.getD 0)
        = some (net.name.getD ("Net-" ++ toString (net.id.getD 0))) := by
    intro net hmem
    rw [hstep, Option.getD_some]
    have h1 := buildNetMap_get_mem pcb.nets [] net hmem hnd
    by_cases hz : mapHasI (buildNetMap pcb.nets []) 0
    · rw [if_pos hz]
      exact h1
    · rw [if_neg hz]
      by_cases h0 : net.id.getD 0 = 0
      · exfalso
        rw [h0] at h1
        exact hz (by simp [mapHasI, h1])
      · rw [mapGetI_set_ne _ _ _ _ h0]
        exact h1
  refine ⟨?_, ?_, ?_⟩
  · intro net hmem s hs
    have := hgen net hmem
    rwa [hs, Option.getD_some] at this
  · intro net hmem hs
    have := hgen net hmem
    rwa [hs, Option.getD_none] at this
  · intro hz
    rw [hstep, Option.getD_some]
    have habs : mapGetI (buildNetMap pcb.nets []) 0 = none := by
      rw [buildNetMap_get_absent pcb.nets [] 0 hz]
      rfl
    rw [if_neg (by simp [mapHasI, habs]), mapGetI_set_self]

/-- Net table for the C6 witness: named net 1, unnamed net 2. -/
def kicadPcbNetsW : KicadPcb :=
  { footprints := [], nets := [⟨some 1, some "VCC"⟩, ⟨some 2, none⟩], vias := [],
    graphicLines := [], graphicRects := [], graphicPolys := [], graphicTexts := [] }

/-- Concrete state for the C6 witness. -/
def pcbStateNetsW : PcbState :=
  { kicadPcb := some kicadPcbNetsW, k2cMatPcb := none, netNumToName := some [],
    footprintUuidToComponentId := [], footprintUuidToSourceComponentId := [],
    processedNets := [], source_ports := [], source_traces := [], pcb_vias := [],
    pcb_boards := [], pcb_silkscreen_paths := [], pcb_silkscreen_texts := [],
    pcb_smtpads := [], pcb_plated_holes := [], pcb_holes := [], pcb_ports := [],
    stats := none }

/-- Witness for the amended C6 on a concrete two-net table. -/
theorem net_naming_spec_witness :
    mapGetI (((netsStep pcbStateNetsW).1.netNumToName).getD []) 1 = some "VCC"
      ∧ mapGetI (((netsStep pcbStateNetsW).1.netNumToName).getD []) 2
          = some ("Net-" ++ toString (2 : ℤ))
      ∧ mapGetI (((netsStep pcbStateNetsW).1.netNumToName).getD []) 0 = some "" := by
  have h := net_naming_spec pcbStateNetsW kicadPcbNetsW rfl rfl (by decide)
  refine ⟨?_, ?_, ?_⟩
  · exact h.1 ⟨some 1, some "VCC"⟩ (by simp [kicadPcbNetsW]) "VCC" rfl
  · exact h.2.1 ⟨some 2, none⟩ (by simp [kicadPcbNetsW]) rfl
  · exact h.2.2 (by decide)

/-- Net table for the C6 counterexample: one unnamed entry with id 0. -/
def kicadPcbNetsCex : KicadPcb :=
  { footprints := [], nets := [⟨some 0, none⟩], vias := [], graphicLines := [],
    graphicRects := [], graphicPolys := [], graphicTexts := [] }

/-- Concrete state for the C6 counterexample. -/
def pcbStateNetsCex : PcbState :=
  { kicadPcb := some kicadPcbNetsCex, k2cMatPcb := none, netNumToName := some [],
    footprintUuidToComponentId := [], footprintUuidToSourceComponentId := [],
    processedNets := [], source_ports := [], source_traces := [], pcb_vias := [],
    pcb_boards := [], pcb_silkscreen_paths := [], pcb_silkscreen_texts := [],
    pcb_smtpads := [], pcb_plated_holes := [], pcb_holes := [], pcb_ports := [],
    stats := none }

/-- Counterexample to C6 as stated: with a source net entry of id 0 and no
name, the pass maps net 0 to the auto-generated `Net-0`, not to the
empty/unnamed placeholder. -/
theorem net_zero_autoname_cex :
    mapGetI (((netsStep pcbStateNetsCex).1.netNumToName).getD []) 0
        = some ("Net-" ++ toString (0 : ℤ))
      ∧ some ("Net-" ++ toString (0 : ℤ)) ≠ (some "" : Option String) := by
  constructor
  · exact rfl
  · intro h
    injection h with h1
    have h2 := congrArg String.length h1
    rw [String.length_append] at h2
    have h3 : String.length "Net-" = 4 := by decide
    have h4 : String.length "" = 0 := rfl
    rw [h3, h4] at h2
    omega

/-!
## CollectSourceTracesStage (src/unnamed/part_001 lines 218-428)
-/

/-- A member-pad entry of the net→pads map. -/
structure Ep where
  componentId : String
  padNumber : String
  sourcePortId : String
  deriving DecidableEq

/-- `getPadNet`: the numeric net id extracted from the pad's
`_sxNet`/`net` field; `none` models the null result for an absent or
non-extractable net. -/
def getPadNet (pad : FpPad) : Option Int :=
  pad.net

/-- `getFootprintReference`: the `Reference` property, else the reference
`fp_text`, else `none`. -/
def getFootprintReference (fp : Footprint) : Option String :=
  match fp.properties.find? (fun p => p.key == "Reference") with
  | some p => some p.value
  | none =>
    match fp.fpTexts.find? (fun t => t.typ == "reference") with
    | some t => some t.text
    | none => none

/-- JavaScript `parseInt(s, 10)`: optional sign then leading decimal
digits; `none` models NaN. -/
def parseIntOpt (s : String) : Option Int :=
  let signAndRest : Int × List Char :=
    match s.data with
    | '-' :: cs => (-1, cs)
    | '+' :: cs => (1, cs)
    | cs => (1, cs)
  let digits := signAndRest.2.takeWhile Char.isDigit
  if digits.isEmpty then none
  else some (signAndRest.1 *
    digits.foldl (fun acc c => acc * 10 + ((c.toNat : Int) - 48)) 0)

/-- `getOrCreateSourcePort`: derive the deterministic port id
`<componentId>_port_<padNumber>`, insert a `source_port` when none with
that id exists yet, and return the id with the updated collection. -/
def getOrCreateSourcePort (fuuidToSrc : List (String × String))
    (componentId padNumber : String) (fp : Footprint)
    (ports : List SourcePort) : String × List SourcePort :=
  let sourcePortId := componentId ++ "_port_" ++ padNumber
  match ports.find? (fun sp => sp.source_port_id == sourcePortId) with
  | some _ => (sourcePortId, ports)
  | none =>
    let sourceComponentId :=
      match fp.uuid with
      | some fuuid => mapGetS fuuidToSrc fuuid
      | none => none
    let reference := getFootprintReference fp
    (sourcePortId, ports ++
      [{ source_port_id := sourcePortId,
         source_component_id := jsOrStr sourceComponentId componentId,
         name := jsOrStr reference "U" ++ "." ++ padNumber,
         pin_number := match parseIntOpt padNumber with
           | some v => if v = 0 then none else some v
           | none => none }])

/-- `netToPads` update: JavaScript `Map` semantics — push onto the existing
key's list, else append a fresh key with a one-element list. -/
def ntpAdd (ntp : List (Int × List Ep)) (n : Int) (ep : Ep) : List (Int × List Ep) :=
  match ntp with
  | [] => [(n, [ep])]
  | (k, l) :: rest => if k = n then (k, l ++ [ep]) :: rest else (k, l) :: ntpAdd rest n ep

/-- The pad loop of `processFootprintPads`: skip pads without a number and
pads whose net is absent or 0; otherwise get-or-create the source port and
record the membership. -/
def padsLoop (fuuidToSrc : List (String × String)) (componentId : String)
    (fp : Footprint) (pads : List FpPad) (ntp : List (Int × List Ep))
    (ports : List SourcePort) : List (Int × List Ep) × List SourcePort :=
  match pads with
  | [] => (ntp, ports)
  | pad :: rest =>
    match pad.number with
    | none => padsLoop fuuidToSrc componentId fp rest ntp ports
    | some num =>
      if num = "" then padsLoop fuuidToSrc componentId fp rest ntp ports
      else
        match getPadNet pad with
        | none => padsLoop fuuidToSrc componentId fp rest ntp ports
        | some netNum =>
          if netNum = 0 then padsLoop fuuidToSrc componentId fp rest ntp ports
          else
            let created := getOrCreateSourcePort fuuidToSrc componentId num fp ports
            padsLoop fuuidToSrc componentId fp rest
              (ntpAdd ntp netNum ⟨componentId, num, created.1⟩) created.2

/-- `processFootprintPads`: skip footprints without a uuid or without a
component-id mapping, otherwise run the pad loop. -/
def processFootprintPads (fuuidToComp fuuidToSrc : List (String × String))
    (fp : Footprint) (ntp : List (Int × List Ep)) (ports : List SourcePort) :
    List (Int × List Ep) × List SourcePort :=
  match fp.uuid with
  | none => (ntp, ports)
  | some fuuid =>
    match mapGetS fuuidToComp fuuid with
    | none => (ntp, ports)
    | some componentId => padsLoop fuuidToSrc componentId fp fp.fpPads ntp ports

/-- The footprint loop of `CollectSourceTracesStage.step`. -/
def collectNetToPads (fuuidToComp fuuidToSrc : List (String × String))
    (fps : List Footprint) (ntp : List (Int × List Ep))
    (ports : List SourcePort) : List (Int × List Ep) × List SourcePort :=
  match fps with
  | [] => (ntp, ports)
  | fp :: rest =>
    let res := processFootprintPads fuuidToComp fuuidToSrc fp ntp ports
    collectNetToPads fuuidToComp fuuidToSrc rest res.1 res.2

/-- `createSourceTrace`: one `source_trace` whose endpoint ids are the
member pads' source-port ids, named from the net table or `Net-<n>`. -/
def mkSourceTrace (nmap : List (Int × String)) (n : Int) (mem : List Ep) : SourceTrace :=
  { connected_source_port_ids := mem.map (·.sourcePortId),
    connected_source_net_ids := [],
    display_name := jsOrStr (mapGetI nmap n) ("Net-" ++ toString n) }

/-- The trace loop of `CollectSourceTracesStage.step`: emit one trace per
net with at least two member pads that is not yet in `processedNets`,
marking each emitted net processed.  The emitted traces are paired with the
net id of their loop iteration. -/
def emitLoop (nmap : List (Int × String)) :
    List (Int × List Ep) → List Int → List (Int × SourceTrace) × List Int
  | [], proc => ([], proc)
  | (n, mem) :: rest, proc =>
    if mem.length < 2 ∨ n ∈ proc then emitLoop nmap rest proc
    else
      let res := emitLoop nmap rest (proc ++ [n])
      ((n, mkSourceTrace nmap n mem) :: res.1, res.2)

/-- `CollectSourceTracesStage.step` (src/unnamed/part_001 lines 234-271). -/
def tracesStep (st : PcbState) : PcbState × Bool :=
  match st.kicadPcb, st.netNumToName with
  | some pcb, some nmap =>
    let collected := collectNetToPads st.footprintUuidToComponentId
      st.footprintUuidToSourceComponentId pcb.footprints [] st.source_ports
    let emitted := emitLoop nmap collected.1 st.processedNets
    ({ st with
        source_ports := collected.2,
        source_traces := st.source_traces ++ emitted.1.map (·.2),
        processedNets := emitted.2,
        stats := st.stats.map (fun s => { s with traces := s.traces + emitted.1.length }) },
      true)
  | _, _ => (st, true)

lemma ntpAdd_keys (ntp : List (Int × List Ep)) (n : Int) (ep : Ep) :
    (ntpAdd ntp n ep).map (·.1)
      = if n ∈ ntp.map (·.1) then ntp.map (·.1) else ntp.map (·.1) ++ [n] := by
  induction ntp with
  | nil => simp [ntpAdd]
  | cons e rest ih =>
    rcases e with ⟨k, l⟩
    by_cases h : k = n
    · subst h
      simp [ntpAdd]
    · simp only [ntpAdd, if_neg h, List.map_cons, ih]
      by_cases hmem : n ∈ rest.map (·.1)
      · rw [if_pos hmem, if_pos (by simp [hmem])]
      · rw [if_neg hmem, if_neg (by simp [hmem, Ne.symm h])]
        simp

lemma ntpAdd_keys_nodup (ntp : List (Int × List Ep)) (n : Int) (ep : Ep)
    (h : (ntp.map (·.1)).Nodup) : ((ntpAdd ntp n ep).map (·.1)).Nodup := by
  rw [ntpAdd_keys]
  by_cases hmem : n ∈ ntp.map (·.1)
  · rwa [if_pos hmem]
  · rw [if_neg hmem]
    simp [List.nodup_append, h, hmem]

lemma ntpAdd_key_origin (ntp : List (Int × List Ep)) (n : Int) (ep : Ep)
    (k : Int) (h : k ∈ (ntpAdd ntp n ep).map (·.1)) :
    k ∈ ntp.map (·.1) ∨ k = n := by
  rw [ntpAdd_keys] at h
  by_cases hmem : n ∈ ntp.map (·.1)
  · rw [if_pos hmem] at h
    exact Or.inl h
  · rw [if_neg hmem] at h
    rcases List.mem_append.mp h with h1 | h1
    · exact Or.inl h1
    · exact Or.inr (List.mem_singleton.mp h1)

lemma padsLoop_inv (fuuidToSrc : List (String × String)) (cid : String)
    (fp : Footprint) (pads : List FpPad) :
    ∀ (ntp : List (Int × List Ep)) (ports : List SourcePort),
      (ntp.map (·.1)).Nodup → (∀ k ∈ ntp.map (·.1), k ≠ 0) →
      ((padsLoop fuuidToSrc cid fp pads ntp ports).1.map (·.1)).Nodup
        ∧ (∀ k ∈ (padsLoop fuuidToSrc cid fp pads ntp ports).1.map (·.1), k ≠ 0) := by
  induction pads with
  | nil => intro ntp ports h1 h2; exact ⟨h1, h2⟩
  | cons pad rest ih =>
    intro ntp ports h1 h2
    cases hn : pad.number with
    | none => simpa only [padsLoop, hn] using ih ntp ports h1 h2
    | some num =>
      by_cases he : num = ""
      · simpa only [padsLoop, hn, if_pos he] using ih ntp ports h1 h2
      · cases hnet : getPadNet pad with
        | none => simpa only [padsLoop, hn, if_neg he, hnet] using ih ntp ports h1 h2
        | some netNum =>
          by_cases hz : netNum = 0
          · simpa only [padsLoop, hn, if_neg he, hnet, if_pos hz] using ih ntp ports h1 h2
          · simp only [padsLoop, hn, if_neg he, hnet, if_neg hz]
            exact ih _ _ (ntpAdd_keys_nodup ntp netNum _ h1)
              (fun k hk => (ntpAdd_key_origin ntp netNum _ k hk).elim
                (fun h => h2 k h) (fun h => by rw [h]; exact hz))

lemma collect_inv (fuuidToComp fuuidToSrc : List (String × String))
    (fps : List Footprint) :
    ∀ (ntp : List (Int × List Ep)) (ports : List SourcePort),
      (ntp.map (·.1)).Nodup → (∀ k ∈ ntp.map (·.1), k ≠ 0) →
      ((collectNetToPads fuuidToComp fuuidToSrc fps ntp ports).1.map (·.1)).Nodup
        ∧ (∀ k ∈ (collectNetToPads fuuidToComp fuuidToSrc fps ntp ports).1.map (·.1),
            k ≠ 0) := by
  induction fps with
  | nil => intro ntp ports h1 h2; exact ⟨h1, h2⟩
  | cons fp rest ih =>
    intro ntp ports h1 h2
    simp only [collectNetToPads]
    cases hu : fp.uuid with
    | none =>
      have hres : processFootprintPads fuuidToComp fuuidToSrc fp ntp ports
          = (ntp, ports) := by
        simp [processFootprintPads, hu]
      rw [hres]
      exact ih ntp ports h1 h2
    | some fuuid =>
      cases hc : mapGetS fuuidToComp fuuid with
      | none =>
        have hres : processFootprintPads fuuidToComp fuuidToSrc fp ntp ports
            = (ntp, ports) := by
          simp [processFootprintPads, hu, hc]
        rw [hres]
        exact ih ntp ports h1 h2
      | some componentId =>
        have hres : processFootprintPads fuuidToComp fuuidToSrc fp ntp ports
            = padsLoop fuuidToSrc componentId fp fp.fpPads ntp ports := by
          simp [processFootprintPads, hu, hc]
        rw [hres]
        have hinv := padsLoop_inv fuuidToSrc componentId fp fp.fpPads ntp ports h1 h2
        exact ih _ _ hinv.1 hinv.2

lemma emitLoop_keys (nmap : List (Int × String)) (ntp : List (Int × List Ep)) :
    ∀ (proc : List Int) (p : Int × SourceTrace),
      p ∈ (emitLoop nmap ntp proc).1 → p.1 ∈ ntp.map (·.1) := by
  induction ntp with
  | nil => intro proc p h; simp [emitLoop] at h
  | cons e rest ih =>
    rcases e with ⟨n, mem⟩
    intro proc p h
    simp only [emitLoop] at h
    by_cases hc : mem.length < 2 ∨ n ∈ proc
    · rw [if_pos hc] at h
      simp only [List.map_cons]
      exact List.mem_cons_of_mem _ (ih proc p h)
    · rw [if_neg hc] at h
      rcases List.mem_cons.mp h with heq | htail
      · simp [heq]
      · simp only [List.map_cons]
        exact List.mem_cons_of_mem _ (ih _ p htail)

lemma emitLoop_filter (nmap : List (Int × String)) (ntp : List (Int × List Ep)) :
    ∀ (proc : List Int),
      (ntp.map (·.1)).Nodup → (∀ k ∈ ntp.map (·.1), k ∉ proc) →
      ∀ n mem, (n, mem) ∈ ntp →
        (emitLoop nmap ntp proc).1.filter (fun p => p.1 == n)
          = if 2 ≤ mem.length then [(n, mkSourceTrace nmap n mem)] else [] := by
  induction ntp with
  | nil => intro proc _ _ n mem h; cases h
  | cons e rest ih =>
    rcases e with ⟨k, l⟩
    intro proc hnd hdisj n mem hmem
    rw [List.map_cons, List.nodup_cons] at hnd
    have hkproc : k ∉ proc := hdisj k (by simp)
    rcases List.mem_cons.mp hmem with heq | htail
    · injection heq with hn hl
      subst hn
      subst hl
      by_cases hlen : mem.length < 2
      · simp only [emitLoop, if_pos (Or.inl hlen)]
        rw [if_neg (by omega)]
        rw [List.filter_eq_nil_iff]
        intro p hp
        simp only [beq_iff_eq]
        intro he
        have hkey := emitLoop_keys nmap rest proc p hp
        rw [he] at hkey
        exact hnd.1 hkey
      · have hcond : ¬(mem.length < 2 ∨ n ∈ proc) := by
          push_neg
          exact ⟨by omega, hkproc⟩
        simp only [emitLoop, if_neg hcond]
        rw [if_pos (by omega)]
        rw [List.filter_cons_of_pos (by simp)]
        have htl : (emitLoop nmap rest (proc ++ [n])).1.filter (fun p => p.1 == n) = [] := by
          rw [List.filter_eq_nil_iff]
          intro p hp
          simp only [beq_iff_eq]
          intro he
          have hkey := emitLoop_keys nmap rest (proc ++ [n]) p hp
          rw [he] at hkey
          exact hnd.1 hkey
        rw [htl]
    · have hkn : n ≠ k := by
        intro he
        subst he
        exact hnd.1 (List.mem_map.mpr ⟨(n, mem), htail, rfl⟩)
      by_cases hc : l.length < 2 ∨ k ∈ proc
      · simp only [emitLoop, if_pos hc]
        exact ih proc hnd.2 (fun k2 hk2 => hdisj k2 (by simp [hk2])) n mem htail
      · simp only [emitLoop, if_neg hc]
        rw [List.filter_cons_of_neg (by simp [Ne.symm hkn])]
        refine ih (proc ++ [k]) hnd.2 ?_ n mem htail
        intro k2 hk2
        simp only [List.mem_append, List.mem_singleton]
        rintro (h1 | h1)
        · exact hdisj k2 (by simp [hk2]) h1
        · rw [h1] at hk2
          exact hnd.1 hk2

/-- The net→member-pads map one `step()` call builds from the parsed
footprints (the first component of the collection phase). -/
def runNetToPads (st : PcbState) (pcb : KicadPcb) : List (Int × List Ep) :=
  (collectNetToPads st.footprintUuidToComponentId st.footprintUuidToSourceComponentId
    pcb.footprints [] st.source_ports).1

/-- C1 (amended): in one run the net→pads map has pairwise-distinct net
keys, none of which is 0 (pads with an absent/null/0 net are never
counted); every net with at least two member pads gets exactly one emitted
trace, whose endpoint-id list has exactly one entry per member pad (the
same length — the entries themselves need not be distinct); nets with
fewer than two member pads get no trace; and the store receives exactly
the emitted traces. -/
theorem source_trace_aggregation (st : PcbState) (pcb : KicadPcb)
    (nmap : List (Int × String))
    (hp : st.kicadPcb = some pcb) (hn : st.netNumToName = some nmap)
    (hproc : st.processedNets = []) :
    ((runNetToPads st pcb).map (·.1)).Nodup
      ∧ (∀ n mem, (n, mem) ∈ runNetToPads st pcb → n ≠ 0)
      ∧ (∀ n mem, (n, mem) ∈ runNetToPads st pcb → 2 ≤ mem.length →
          ((emitLoop nmap (runNetToPads st pcb) []).1.filter (fun p => p.1 == n)
              = [(n, mkSourceTrace nmap n mem)])
            ∧ (mkSourceTrace nmap n mem).connected_source_port_ids.length = mem.length)
      ∧ (∀ n mem, (n, mem) ∈ runNetToPads st pcb → mem.length < 2 →
          (emitLoop nmap (runNetToPads st pcb) []).1.filter (fun p => p.1 == n) = [])
      ∧ (tracesStep st).1.source_traces
          = st.source_traces ++ (emitLoop nmap (runNetToPads st pcb) []).1.map (·.2) := by
  have hinv := collect_inv st.footprintUuidToComponentId
    st.footprintUuidToSourceComponentId pcb.footprints [] st.source_ports
    (by simp) (by simp)
  refine ⟨hinv.1, ?_, ?_, ?_, ?_⟩
  · intro n mem hmem
    exact hinv.2 n (List.mem_map.mpr ⟨(n, mem), hmem, rfl⟩)
  · intro n mem hmem hlen
    constructor
    · have := emitLoop_filter nmap (runNetToPads st pcb) [] hinv.1
        (fun k _ => List.not_mem_nil k) n mem hmem
      rwa [if_pos hlen] at this
    · simp [mkSourceTrace]
  · intro n mem hmem hlen
    have := emitLoop_filter nmap (runNetToPads st pcb) [] hinv.1
      (fun k _ => List.not_mem_nil k) n mem hmem
    rwa [if_neg (by omega)] at this
  · simp only [tracesStep, hp, hn]
    rw [hproc]
    rfl

/-- Concrete pad (number "1", net 5) for the C1 witness. -/
def padW1 : FpPad :=
  { number := some "1", net := some 5, at_ := none, padTypeF := none,
    typeF := none, shape := none, sizeW := none, sizeH := none, drill := none,
    roundrectRatio := none, layers := [], primPolys := [] }

/-- Concrete pad (number "2", net 5) for the C1 witness. -/
def padW2 : FpPad := { padW1 with number := some "2" }

/-- Concrete footprint for the C1 witness. -/
def fpTracesW : Footprint :=
  { uuid := some "f", fpPads := [padW1, padW2], properties := [], fpTexts := [] }

/-- Concrete PCB tree for the C1 witness. -/
def pcbTracesW : KicadPcb :=
  { footprints := [fpTracesW], nets := [], vias := [], graphicLines := [],
    graphicRects := [], graphicPolys := [], graphicTexts := [] }

/-- Concrete state for the C1 witness. -/
def pcbStateTracesW : PcbState :=
  { kicadPcb := some pcbTracesW, k2cMatPcb := none, netNumToName := some [],
    footprintUuidToComponentId := [("f", "c")],
    footprintUuidToSourceComponentId := [], processedNets := [],
    source_ports := [], source_traces := [], pcb_vias := [], pcb_boards := [],
    pcb_silkscreen_paths := [], pcb_silkscreen_texts := [], pcb_smtpads := [],
    pcb_plated_holes := [], pcb_holes := [], pcb_ports := [], stats := none }

/-- The member list collected for net 5 in the C1 witness run. -/
def memW : List Ep := [⟨"c", "1", "c_port_1"⟩, ⟨"c", "2", "c_port_2"⟩]

/-- Witness for the amended C1 on a two-pad net. -/
theorem source_trace_aggregation_witness :
    (5, memW) ∈ runNetToPads pcbStateTracesW pcbTracesW
      ∧ ((emitLoop [] (runNetToPads pcbStateTracesW pcbTracesW) []).1.filter
          (fun p => p.1 == 5) = [(5, mkSourceTrace [] 5 memW)])
      ∧ (mkSourceTrace [] 5 memW).connected_source_port_ids.length = memW.length := by
  have h := source_trace_aggregation pcbStateTracesW pcbTracesW [] rfl rfl rfl
  have hmem : (5, memW) ∈ runNetToPads pcbStateTracesW pcbTracesW := by decide
  exact ⟨hmem, (h.2.2.1 5 memW hmem (by decide)).1, (h.2.2.1 5 memW hmem (by decide)).2⟩

/-- Concrete footprint with a duplicated pad number on one net, for the C1
counterexample. -/
def fpTracesCex : Footprint :=
  { uuid := some "f", fpPads := [padW1, padW1], properties := [], fpTexts := [] }

/-- Concrete PCB tree for the C1 counterexample. -/
def pcbTracesCex : KicadPcb :=
  { footprints := [fpTracesCex], nets := [], vias := [], graphicLines := [],
    graphicRects := [], graphicPolys := [], graphicTexts := [] }

/-- Concrete state for the C1 counterexample. -/
def pcbStateTracesCex : PcbState :=
  { kicadPcb := some pcbTracesCex, k2cMatPcb := none, netNumToName := some [],
    footprintUuidToComponentId := [("f", "c")],
    footprintUuidToSourceComponentId := [], processedNets := [],
    source_ports := [], source_traces := [], pcb_vias := [], pcb_boards := [],
    pcb_silkscreen_paths := [], pcb_silkscreen_texts := [], pcb_smtpads := [],
    pcb_plated_holes := [], pcb_holes := [], pcb_ports := [], stats := none }

/-- Counterexample to C1 as stated: with two pads of the same footprint
sharing pad number "1" and net 5, net 5 has two member pads but the single
emitted trace's endpoint identifiers are not distinct and their set has
cardinality 1, not 2. -/
theorem source_trace_distinct_cex :
    ((runNetToPads pcbStateTracesCex pcbTracesCex).map (fun e => (e.1, e.2.length))
        = [(5, 2)])
      ∧ ((tracesStep pcbStateTracesCex).1.source_traces.map
          (·.connected_source_port_ids) = [["c_port_1", "c_port_1"]])
      ∧ ¬(["c_port_1", "c_port_1"] : List String).Nodup
      ∧ (["c_port_1", "c_port_1"] : List String).dedup.length ≠ 2 := by
  refine ⟨by decide, ?_, by decide, by decide⟩
  decide

/-!
## CollectGraphicsStage (src/unnamed/part_003 lines 1-500) and
CollectViasStage (src/lib/stages/pcb/CollectViasStage.ts)
-/

/-- A board-outline segment (KiCad coordinates). -/
structure Seg where
  start : Pt
  end_ : Pt
  deriving DecidableEq

/-- `pointsEqual`: componentwise closeness within epsilon 0.001. -/
def pointsEqual (p1 p2 : Pt) : Bool :=
  decide (|p1.x - p2.x| < 1 / 1000) && decide (|p1.y - p2.y| < 1 / 1000)

/-- `pointsEqualKicad`: identical to `pointsEqual` (the source duplicates
the helper for KiCad-space comparisons). -/
def pointsEqualKicad (p1 p2 : Pt) : Bool :=
  decide (|p1.x - p2.x| < 1 / 1000) && decide (|p1.y - p2.y| < 1 / 1000)

attribute [irreducible] pointsEqual pointsEqualKicad

/-- `findIndex` + `splice`: remove and return the first segment matching
the predicate, keeping the rest in order. -/
def extractFirst (p : Seg → Bool) : List Seg → Option (Seg × List Seg)
  | [] => none
  | s :: rest =>
    if p s then some (s, rest)
    else (extractFirst p rest).map (fun r => (r.1, s :: r.2))

/-- The chaining loop of `createBoardOutline`: forward match on the last
end point, else reversed match, else take the next remaining segment.  The
loop consumes exactly one remaining segment per iteration, so running it
with fuel equal to the initial remaining-segment count reproduces the
`while (remaining.length > 0)` loop exactly; `lastEnd` tracks the end point
of the segment appended last. -/
def chainLoopF : ℕ → List Seg → Pt → List Seg → List Seg
  | 0, ordered, _, _ => ordered
  | fuel + 1, ordered, lastEnd, remaining =>
    match remaining with
    | [] => ordered
    | s :: rest =>
      match extractFirst (fun seg => pointsEqualKicad seg.start lastEnd) (s :: rest) with
      | some (seg, rem) => chainLoopF fuel (ordered ++ [seg]) seg.end_ rem
      | none =>
        match extractFirst (fun seg => pointsEqualKicad seg.end_ lastEnd) (s :: rest) with
        | some (seg, rem) =>
          chainLoopF fuel (ordered ++ [⟨seg.end_, seg.start⟩]) seg.start rem
        | none => chainLoopF fuel (ordered ++ [s]) s.end_ rest

/-- The segment-chaining phase of `createBoardOutline`: seed with the first
segment, then run the loop. -/
def chainSegments (segments : List Seg) : List Seg :=
  match segments with
  | [] => []
  | s :: rest => chainLoopF rest.length [s] s.end_ rest

/-- The point-emission phase of `createBoardOutline`: transformed start
points deduplicated against the immediately preceding point, then the
transformed final end point unless it closes the loop. -/
def buildPoints (m : Mat) (ordered : List Seg) : List Pt :=
  let pts := ordered.foldl (fun acc seg =>
    let startPos := applyToPoint m seg.start
    match acc.getLast? with
    | some lastPoint => if pointsEqual lastPoint startPos then acc else acc ++ [startPos]
    | none => acc ++ [startPos]) []
  match ordered.getLast? with
  | some lastSeg =>
    let endPos := applyToPoint m lastSeg.end_
    match pts.head? with
    | some firstPoint => if pointsEqual firstPoint endPos then pts else pts ++ [endPos]
    | none => pts
  | none => pts

/-- `calculateWidth`: `max(x) - min(x)` over the emitted points, 0 when
empty. -/
def calculateWidth (points : List Pt) : ℚ :=
  match points.map (·.x) with
  | [] => 0
  | x :: xs => xs.foldl max x - xs.foldl min x

/-- `calculateHeight`: `max(y) - min(y)` over the emitted points, 0 when
empty. -/
def calculateHeight (points : List Pt) : ℚ :=
  match points.map (·.y) with
  | [] => 0
  | y :: ys => ys.foldl max y - ys.foldl min y

/-- `createBoardOutline` (src/unnamed/part_003 lines 88-188): chain, emit,
then update the single board record in place or insert it. -/
def createBoardOutline (m : Mat) (lines : List GrLine) (st : PcbState) : PcbState :=
  let segments : List Seg :=
    lines.map (fun l => ⟨l.start.getD ⟨0, 0⟩, l.end_.getD ⟨0, 0⟩⟩)
  let orderedSegments := chainSegments segments
  let points := buildPoints m orderedSegments
  match st.pcb_boards with
  | b :: rest =>
    { st with pcb_boards :=
        { b with
          outline := points,
          width := calculateWidth points,
          height := calculateHeight points } :: rest }
  | [] =>
    { st with pcb_boards :=
        [{ outline := points,
           width := calculateWidth points,
           height := calculateHeight points }] }

/-- `mapLayer` of the graphics stage, applied to joined layer names. -/
def mapLayerG (layerNames : List String) : String :=
  let layerStr := String.intercalate " " layerNames
  if strIncludes layerStr "B." || strIncludes layerStr "Back" then "bottom" else "top"

/-- `createSilkscreenPath`. -/
def createSilkscreenPath (m : Mat) (st : PcbState) (line : GrLine) : PcbState :=
  let start := line.start.getD ⟨0, 0⟩
  let end_ := line.end_.getD ⟨0, 0⟩
  let startPos := applyToPoint m start
  let endPos := applyToPoint m end_
  let layer := mapLayerG line.layer
  let strokeWidth := jsOrQ line.width 0.15
  { st with pcb_silkscreen_paths := st.pcb_silkscreen_paths ++
      [{ pcb_component_id := "", layer := layer, route := [startPos, endPos],
         stroke_width := strokeWidth }] }

/-- `processRectangle`: only filled rectangles on copper layers become
rect-shaped smt pads. -/
def processRectangle (m : Mat) (st : PcbState) (rect : GrRect) : PcbState :=
  let start := rect.start.getD ⟨0, 0⟩
  let end_ := rect.end_.getD ⟨0, 0⟩
  let layerStr := String.intercalate " " rect.layer
  let isCopperLayer := strIncludes layerStr ".Cu"
  if !rect.filled || !isCopperLayer then st
  else
    let centerKicad : Pt := ⟨(start.x + end_.x) / 2, (start.y + end_.y) / 2⟩
    let widthKicad := |end_.x - start.x|
    let heightKicad := |end_.y - start.y|
    let centerCJ := applyToPoint m centerKicad
    let layer := mapLayerG rect.layer
    { st with
      pcb_smtpads := st.pcb_smtpads ++
        [{ pcb_component_id := "", shape := "rect", layer := some layer,
           port_hints := [], x := some centerCJ.x, y := some centerCJ.y,
           width := some widthKicad, height := some heightKicad,
           radius := none, corner_radius := none, points := none }],
      stats := st.stats.map (fun s => { s with pads := s.pads + 1 }) }

/-- `createSilkscreenText`. -/
def createSilkscreenText (m : Mat) (st : PcbState) (text : GrText) : PcbState :=
  let pos := applyToPoint m ⟨(text.at_.map (·.x)).getD 0, (text.at_.map (·.y)).getD 0⟩
  let layer := mapLayerG text.layer
  let kicadFontSize := jsOrQ text.fontHeight 1
  let fontSize := kicadFontSize * 1.5
  { st with pcb_silkscreen_texts := st.pcb_silkscreen_texts ++
      [{ pcb_component_id := "", text := text.text.getD "", anchor_position := pos,
         layer := layer, font_size := fontSize, font := "tscircuit2024" }] }

/-- `processPolygon`: filled copper polygons become polygon smt pads; arc
entries are tessellated with the default count. -/
def processPolygon (ops : TrigOps) (m : Mat) (st : PcbState) (poly : GrPoly) : PcbState :=
  let layerStr := String.intercalate " " poly.layer
  let isCopperLayer := strIncludes layerStr ".Cu"
  if !poly.filled || !isCopperLayer then st
  else
    let points := poly.pts.foldl (fun acc pt =>
      match pt with
      | .xy x y => acc ++ [⟨x, y⟩]
      | .arc s mid e => acc ++ convertArcToPoints ops s mid e) []
    if points.length < 3 then st
    else
      let transformedPoints := points.map (applyToPoint m)
      let layer := mapLayerG poly.layer
      { st with
        pcb_smtpads := st.pcb_smtpads ++
          [{ pcb_component_id := "", shape := "polygon", layer := some layer,
             port_hints := [], x := none, y := none, width := none, height := none,
             radius := none, corner_radius := none, points := some transformedPoints }],
        stats := st.stats.map (fun s => { s with pads := s.pads + 1 }) }

/-- `CollectGraphicsStage.step` (src/unnamed/part_003 lines 13-86). -/
def graphicsStep (ops : TrigOps) (st : PcbState) : PcbState × Bool :=
  match st.kicadPcb, st.k2cMatPcb with
  | some pcb, some m =>
    let edgeCutLines := pcb.graphicLines.filter
      (fun l => strIncludes (String.intercalate " " l.layer) "Edge.Cuts")
    let silkLines := pcb.graphicLines.filter (fun l =>
      !strIncludes (String.intercalate " " l.layer) "Edge.Cuts"
        && strIncludes (String.intercalate " " l.layer) "SilkS")
    let st1 := if edgeCutLines.isEmpty then st else createBoardOutline m edgeCutLines st
    let st2 := silkLines.foldl (createSilkscreenPath m) st1
    let st3 := pcb.graphicRects.foldl (processRectangle m) st2
    let st4 := pcb.graphicPolys.foldl (processPolygon ops m) st3
    let texts := pcb.graphicTexts.filter (fun t =>
      t.layer.any (fun nm =>
        strIncludes nm "SilkS" || strIncludes nm ".Cu" || strIncludes nm "Fab"))
    let st5 := texts.foldl (createSilkscreenText m) st4
    (st5, true)
  | _, _ => (st, true)

/-- `CollectViasStage.mapLayer`. -/
def mapLayerVia (kicadLayer : String) : String :=
  if strIncludes kicadLayer "B.Cu" || strIncludes kicadLayer "Back"
      || strIncludes kicadLayer "B_Cu" then "bottom" else "top"

/-- `CollectViasStage.processVia`; the computed net name is read but not
stored on the inserted record. -/
def processVia (m : Mat) (nmap : List (Int × String)) (st : PcbState) (via : Via) : PcbState :=
  let pos := applyToPoint m (via.at_.getD ⟨0, 0⟩)
  let size := jsOrQ via.size 0.8
  let drill := jsOrQ via.drill 0.4
  let netNum := via.net.getD 0
  let _netName := jsOrStr (mapGetI nmap netNum) ""
  let fromLayer := if via.layers.length > 0 then mapLayerVia (via.layers.headD "") else "top"
  let toLayer := if via.layers.length > 1 then mapLayerVia (via.layers.getLastD "") else "bottom"
  { st with
    pcb_vias := st.pcb_vias ++
      [{ x := pos.x, y := pos.y, outer_diameter := size, hole_diameter := drill,
         layers := [fromLayer, toLayer] }],
    stats := st.stats.map (fun s => { s with vias := s.vias + 1 }) }

/-- `CollectViasStage.step`. -/
def viasStep (st : PcbState) : PcbState × Bool :=
  match st.kicadPcb, st.k2cMatPcb, st.netNumToName with
  | some pcb, some m, some nmap => (pcb.vias.foldl (processVia m nmap) st, true)
  | _, _, _ => (st, true)

lemma pointsEqualKicad_refl (p : Pt) : pointsEqualKicad p p = true := by
  simp only [pointsEqualKicad, sub_self, abs_zero]
  norm_num

lemma pointsEqual_refl (p : Pt) : pointsEqual p p = true := by
  simp only [pointsEqual, sub_self, abs_zero]
  norm_num

lemma pointsEqual_false_of_dx (p q : Pt) (h : 1 / 1000 ≤ |p.x - q.x|) :
    pointsEqual p q = false := by
  have hd : decide (|p.x - q.x| < 1 / 1000) = false :=
    decide_eq_false (not_lt.mpr h)
  rw [pointsEqual, hd, Bool.false_and]

lemma pointsEqual_false_of_dy (p q : Pt) (h : 1 / 1000 ≤ |p.y - q.y|) :
    pointsEqual p q = false := by
  have hd : decide (|p.y - q.y| < 1 / 1000) = false :=
    decide_eq_false (not_lt.mpr h)
  rw [pointsEqual, hd, Bool.and_false]

lemma chainLoopF_step (fuel : ℕ) (ordered : List Seg) (lastEnd : Pt)
    (s : Seg) (rest : List Seg) (h : pointsEqualKicad s.start lastEnd = true) :
    chainLoopF (fuel + 1) ordered lastEnd (s :: rest)
      = chainLoopF fuel (ordered ++ [s]) s.end_ rest := by
  have he : extractFirst (fun seg => pointsEqualKicad seg.start lastEnd) (s :: rest)
      = some (s, rest) := by
    simp [extractFirst, h]
  rw [chainLoopF]
  rw [he]

lemma chain_rect (P1 P2 P3 P4 : Pt) :
    chainSegments [⟨P1, P2⟩, ⟨P2, P3⟩, ⟨P3, P4⟩, ⟨P4, P1⟩]
      = [⟨P1, P2⟩, ⟨P2, P3⟩, ⟨P3, P4⟩, ⟨P4, P1⟩] := by
  show chainLoopF (2 + 1) [⟨P1, P2⟩] P2 [⟨P2, P3⟩, ⟨P3, P4⟩, ⟨P4, P1⟩] = _
  rw [chainLoopF_step 2 _ _ _ _ (pointsEqualKicad_refl P2)]
  show chainLoopF (1 + 1) [⟨P1, P2⟩, ⟨P2, P3⟩] P3 [⟨P3, P4⟩, ⟨P4, P1⟩] = _
  rw [chainLoopF_step 1 _ _ _ _ (pointsEqualKicad_refl P3)]
  show chainLoopF (0 + 1) [⟨P1, P2⟩, ⟨P2, P3⟩, ⟨P3, P4⟩] P4 [⟨P4, P1⟩] = _
  rw [chainLoopF_step 0 _ _ _ _ (pointsEqualKicad_refl P4)]
  rfl

lemma buildPoints_rect (m : Mat) (P1 P2 P3 P4 : Pt)
    (h12 : pointsEqual (applyToPoint m P1) (applyToPoint m P2) = false)
    (h23 : pointsEqual (applyToPoint m P2) (applyToPoint m P3) = false)
    (h34 : pointsEqual (applyToPoint m P3) (applyToPoint m P4) = false) :
    buildPoints m [⟨P1, P2⟩, ⟨P2, P3⟩, ⟨P3, P4⟩, ⟨P4, P1⟩]
      = [applyToPoint m P1, applyToPoint m P2,
         applyToPoint m P3, applyToPoint m P4] := by
  simp [buildPoints, List.foldl, List.getLast?, List.head?, h12, h23, h34,
    pointsEqual_refl]

lemma spread_last_pair (u v : ℚ) :
    List.foldl max u [v, v, u] - List.foldl min u [v, v, u] = |v - u| := by
  simp only [List.foldl]
  rcases le_total u v with h | h
  · rw [max_eq_right h, max_self, max_eq_left h, min_eq_left h, min_eq_left h,
      min_self, abs_of_nonneg (by linarith)]
  · rw [max_eq_left h, max_eq_left h, max_self, min_eq_right h, min_self,
      min_eq_left h, abs_of_nonpos (by linarith)]
    ring

lemma spread_first_pair (u v : ℚ) :
    List.foldl max u [u, v, v] - List.foldl min u [u, v, v] = |v - u| := by
  simp only [List.foldl]
  rcases le_total u v with h | h
  · rw [max_self, max_eq_right h, max_self, min_self, min_eq_left h,
      min_eq_left h, abs_of_nonneg (by linarith)]
  · rw [max_self, max_eq_left h, max_eq_left h, min_self, min_eq_right h,
      min_self, abs_of_nonpos (by linarith)]
    ring

lemma pointsEqualKicad_false_of_dx (p q : Pt) (h : 1 / 1000 ≤ |p.x - q.x|) :
    pointsEqualKicad p q = false := by
  have hd : decide (|p.x - q.x| < 1 / 1000) = false :=
    decide_eq_false (not_lt.mpr h)
  rw [pointsEqualKicad, hd, Bool.false_and]

lemma pointsEqualKicad_false_of_dy (p q : Pt) (h : 1 / 1000 ≤ |p.y - q.y|) :
    pointsEqualKicad p q = false := by
  have hd : decide (|p.y - q.y| < 1 / 1000) = false :=
    decide_eq_false (not_lt.mpr h)
  rw [pointsEqualKicad, hd, Bool.and_false]

/-- All ways to remove one element from a list, returning it with the rest
in order. -/
def picks : List (Pt × Pt) → List ((Pt × Pt) × List (Pt × Pt))
  | [] => []
  | x :: xs => (x, xs) :: (picks xs).map (fun r => (r.1, x :: r.2))

/-- The two orientations of an undirected edge as a segment. -/
def segOf (e : Pt × Pt) : List Seg :=
  [⟨e.1, e.2⟩, ⟨e.2, e.1⟩]

/-- Every presentation (order and orientation) of the three edges `BC`,
`CD`, `DA` of the 4-cycle `A-B-C-D`: each successive segment is either
orientation of a remaining edge. -/
def restArrangements (A B C D : Pt) : List (List Seg) :=
  (picks [(B, C), (C, D), (D, A)]).flatMap (fun p1 =>
    (segOf p1.1).flatMap (fun s1 =>
      (picks p1.2).flatMap (fun p2 =>
        (segOf p2.1).flatMap (fun s2 =>
          (picks p2.2).flatMap (fun p3 =>
            (segOf p3.1).map (fun s3 => [s1, s2, s3]))))))

/-- Every presentation of the 4 edges of the axis-aligned rectangle with
corners `(x1,y1) (x2,y1) (x2,y2) (x1,y2)` as a segment list: the first
segment is any of the 8 oriented edges, followed by every order and
orientation of the remaining three edges (8 × 48 = 384 lists in all). -/
def rectSegArrangements (x1 x2 y1 y2 : ℚ) : List (List Seg) :=
  (restArrangements ⟨x1, y1⟩ ⟨x2, y1⟩ ⟨x2, y2⟩ ⟨x1, y2⟩).map
      (fun r => ⟨⟨x1, y1⟩, ⟨x2, y1⟩⟩ :: r)
    ++ (restArrangements ⟨x2, y1⟩ ⟨x2, y2⟩ ⟨x1, y2⟩ ⟨x1, y1⟩).map
      (fun r => ⟨⟨x2, y1⟩, ⟨x2, y2⟩⟩ :: r)
    ++ (restArrangements ⟨x2, y2⟩ ⟨x1, y2⟩ ⟨x1, y1⟩ ⟨x2, y1⟩).map
      (fun r => ⟨⟨x2, y2⟩, ⟨x1, y2⟩⟩ :: r)
    ++ (restArrangements ⟨x1, y2⟩ ⟨x1, y1⟩ ⟨x2, y1⟩ ⟨x2, y2⟩).map
      (fun r => ⟨⟨x1, y2⟩, ⟨x1, y1⟩⟩ :: r)
    ++ (restArrangements ⟨x2, y1⟩ ⟨x1, y1⟩ ⟨x1, y2⟩ ⟨x2, y2⟩).map
      (fun r => ⟨⟨x2, y1⟩, ⟨x1, y1⟩⟩ :: r)
    ++ (restArrangements ⟨x1, y1⟩ ⟨x1, y2⟩ ⟨x2, y2⟩ ⟨x2, y1⟩).map
      (fun r => ⟨⟨x1, y1⟩, ⟨x1, y2⟩⟩ :: r)
    ++ (restArrangements ⟨x1, y2⟩ ⟨x2, y2⟩ ⟨x2, y1⟩ ⟨x1, y1⟩).map
      (fun r => ⟨⟨x1, y2⟩, ⟨x2, y2⟩⟩ :: r)
    ++ (restArrangements ⟨x2, y2⟩ ⟨x2, y1⟩ ⟨x1, y1⟩ ⟨x1, y2⟩).map
      (fun r => ⟨⟨x2, y2⟩, ⟨x2, y1⟩⟩ :: r)

/-- An `Edge.Cuts` `gr_line` carrying the given segment. -/
def lineOfSeg (s : Seg) : GrLine :=
  ⟨["Edge.Cuts"], some s.start, some s.end_, none⟩

/-- Every presentation of the rectangle's 4 edges as a `gr_line` list. -/
def rectLineArrangements (x1 x2 y1 y2 : ℚ) : List (List GrLine) :=
  (rectSegArrangements x1 x2 y1 y2).map (fun segs => segs.map lineOfSeg)

set_option maxHeartbeats 4000000 in
/-- Seeded chaining: starting from the segment `A → B` of the 4-cycle
`A-B-C-D` (with pairwise-distinguishable corners), the greedy
forward/reversed matching loop turns every presentation of the remaining
three edges into the canonical cyclic chain. -/
lemma chain_seeded (A B C D : Pt)
    (pab : pointsEqualKicad A B = false) (pba : pointsEqualKicad B A = false)
    (pac : pointsEqualKicad A C = false) (pca : pointsEqualKicad C A = false)
    (pad : pointsEqualKicad A D = false) (pda : pointsEqualKicad D A = false)
    (pbc : pointsEqualKicad B C = false) (pcb : pointsEqualKicad C B = false)
    (pbd : pointsEqualKicad B D = false) (pdb : pointsEqualKicad D B = false)
    (pcd : pointsEqualKicad C D = false) (pdc : pointsEqualKicad D C = false)
    (rest : List Seg) (h : rest ∈ restArrangements A B C D) :
    chainSegments (⟨A, B⟩ :: rest)
      = [⟨A, B⟩, ⟨B, C⟩, ⟨C, D⟩, ⟨D, A⟩] := by
  fin_cases h <;>
    simp [chainSegments, chainLoopF, extractFirst, pab, pba, pac, pca, pad,
      pda, pbc, pcb, pbd, pdb, pcd, pdc, pointsEqualKicad_refl]

/-- Chaining any of the 384 presentations of the rectangle's edges yields
one of the 8 cyclic chains (4 starting corners × 2 directions). -/
lemma chain_cases (x1 x2 y1 y2 : ℚ) (hx : 1 / 1000 ≤ x2 - x1)
    (hy : 1 / 1000 ≤ y2 - y1) (segs : List Seg)
    (h : segs ∈ rectSegArrangements x1 x2 y1 y2) :
    chainSegments segs
      ∈ ([[⟨⟨x1, y1⟩, ⟨x2, y1⟩⟩, ⟨⟨x2, y1⟩, ⟨x2, y2⟩⟩, ⟨⟨x2, y2⟩, ⟨x1, y2⟩⟩, ⟨⟨x1, y2⟩, ⟨x1, y1⟩⟩],
          [⟨⟨x2, y1⟩, ⟨x2, y2⟩⟩, ⟨⟨x2, y2⟩, ⟨x1, y2⟩⟩, ⟨⟨x1, y2⟩, ⟨x1, y1⟩⟩, ⟨⟨x1, y1⟩, ⟨x2, y1⟩⟩],
          [⟨⟨x2, y2⟩, ⟨x1, y2⟩⟩, ⟨⟨x1, y2⟩, ⟨x1, y1⟩⟩, ⟨⟨x1, y1⟩, ⟨x2, y1⟩⟩, ⟨⟨x2, y1⟩, ⟨x2, y2⟩⟩],
          [⟨⟨x1, y2⟩, ⟨x1, y1⟩⟩, ⟨⟨x1, y1⟩, ⟨x2, y1⟩⟩, ⟨⟨x2, y1⟩, ⟨x2, y2⟩⟩, ⟨⟨x2, y2⟩, ⟨x1, y2⟩⟩],
          [⟨⟨x2, y1⟩, ⟨x1, y1⟩⟩, ⟨⟨x1, y1⟩, ⟨x1, y2⟩⟩, ⟨⟨x1, y2⟩, ⟨x2, y2⟩⟩, ⟨⟨x2, y2⟩, ⟨x2, y1⟩⟩],
          [⟨⟨x1, y1⟩, ⟨x1, y2⟩⟩, ⟨⟨x1, y2⟩, ⟨x2, y2⟩⟩, ⟨⟨x2, y2⟩, ⟨x2, y1⟩⟩, ⟨⟨x2, y1⟩, ⟨x1, y1⟩⟩],
          [⟨⟨x1, y2⟩, ⟨x2, y2⟩⟩, ⟨⟨x2, y2⟩, ⟨x2, y1⟩⟩, ⟨⟨x2, y1⟩, ⟨x1, y1⟩⟩, ⟨⟨x1, y1⟩, ⟨x1, y2⟩⟩],
          [⟨⟨x2, y2⟩, ⟨x2, y1⟩⟩, ⟨⟨x2, y1⟩, ⟨x1, y1⟩⟩, ⟨⟨x1, y1⟩, ⟨x1, y2⟩⟩, ⟨⟨x1, y2⟩, ⟨x2, y2⟩⟩]] :
        List (List Seg)) := by
  have hxx : |x1 - x2| = x2 - x1 := by
    rw [abs_sub_comm]
    exact abs_of_nonneg (by linarith)
  have hxx2 : |x2 - x1| = x2 - x1 := abs_of_nonneg (by linarith)
  have hyy : |y1 - y2| = y2 - y1 := by
    rw [abs_sub_comm]
    exact abs_of_nonneg (by linarith)
  have hyy2 : |y2 - y1| = y2 - y1 := abs_of_nonneg (by linarith)
  have pe1 : pointsEqualKicad ⟨x1, y1⟩ ⟨x2, y1⟩ = false :=
    pointsEqualKicad_false_of_dx _ _ (by simpa [hxx] using hx)
  have pe2 : pointsEqualKicad ⟨x2, y1⟩ ⟨x1, y1⟩ = false :=
    pointsEqualKicad_false_of_dx _ _ (by simpa [hxx2] using hx)
  have pe3 : pointsEqualKicad ⟨x2, y1⟩ ⟨x2, y2⟩ = false :=
    pointsEqualKicad_false_of_dy _ _ (by simpa [hyy] using hy)
  have pe4 : pointsEqualKicad ⟨x2, y2⟩ ⟨x2, y1⟩ = false :=
    pointsEqualKicad_false_of_dy _ _ (by simpa [hyy2] using hy)
  have pe5 : pointsEqualKicad ⟨x2, y2⟩ ⟨x1, y2⟩ = false :=
    pointsEqualKicad_false_of_dx _ _ (by simpa [hxx2] using hx)
  have pe6 : pointsEqualKicad ⟨x1, y2⟩ ⟨x2, y2⟩ = false :=
    pointsEqualKicad_false_of_dx _ _ (by simpa [hxx] using hx)
  have pe7 : pointsEqualKicad ⟨x1, y2⟩ ⟨x1, y1⟩ = false :=
    pointsEqualKicad_false_of_dy _ _ (by simpa [hyy2] using hy)
  have pe8 : pointsEqualKicad ⟨x1, y1⟩ ⟨x1, y2⟩ = false :=
    pointsEqualKicad_false_of_dy _ _ (by simpa [hyy] using hy)
  have pe9 : pointsEqualKicad ⟨x1, y1⟩ ⟨x2, y2⟩ = false :=
    pointsEqualKicad_false_of_dx _ _ (by simpa [hxx] using hx)
  have pe10 : pointsEqualKicad ⟨x2, y2⟩ ⟨x1, y1⟩ = false :=
    pointsEqualKicad_false_of_dx _ _ (by simpa [hxx2] using hx)
  have pe11 : pointsEqualKicad ⟨x2, y1⟩ ⟨x1, y2⟩ = false :=
    pointsEqualKicad_false_of_dx _ _ (by simpa [hxx2] using hx)
  have pe12 : pointsEqualKicad ⟨x1, y2⟩ ⟨x2, y1⟩ = false :=
    pointsEqualKicad_false_of_dx _ _ (by simpa [hxx] using hx)
  simp only [rectSegArrangements, List.mem_append] at h
  rcases h with ((((((h | h) | h) | h) | h) | h) | h) | h <;>
    obtain ⟨r, hr, rfl⟩ := List.mem_map.mp h
  · rw [chain_seeded _ _ _ _ pe1 pe2 pe9 pe10 pe8 pe7 pe3 pe4 pe11 pe12 pe5 pe6 r hr]
    simp
  · rw [chain_seeded _ _ _ _ pe3 pe4 pe11 pe12 pe2 pe1 pe5 pe6 pe10 pe9 pe7 pe8 r hr]
    simp
  · rw [chain_seeded _ _ _ _ pe5 pe6 pe10 pe9 pe4 pe3 pe7 pe8 pe12 pe11 pe1 pe2 r hr]
    simp
  · rw [chain_seeded _ _ _ _ pe7 pe8 pe12 pe11 pe6 pe5 pe1 pe2 pe9 pe10 pe3 pe4 r hr]
    simp
  · rw [chain_seeded _ _ _ _ pe2 pe1 pe11 pe12 pe3 pe4 pe8 pe7 pe9 pe10 pe6 pe5 r hr]
    simp
  · rw [chain_seeded _ _ _ _ pe8 pe7 pe9 pe10 pe1 pe2 pe6 pe5 pe12 pe11 pe4 pe3 r hr]
    simp
  · rw [chain_seeded _ _ _ _ pe6 pe5 pe12 pe11 pe7 pe8 pe4 pe3 pe10 pe9 pe2 pe1 r hr]
    simp
  · rw [chain_seeded _ _ _ _ pe4 pe3 pe10 pe9 pe5 pe6 pe2 pe1 pe11 pe12 pe8 pe7 r hr]
    simp

/-- `createBoardOutline` on a chain that walks the rectangle x-edge-first:
one board record, the 4 transformed corners, bounding box
`|a|·|Δx| × |d|·|Δy|`. -/
lemma createBoardOutline_xfirst (m : Mat) (a1 a2 b1 b2 : ℚ) (st : PcbState)
    (lines : List GrLine) (hb : m.b = 0) (hc : m.c = 0)
    (ha : 1 / 1000 ≤ |m.a| * |a2 - a1|) (hd : 1 / 1000 ≤ |m.d| * |b2 - b1|)
    (hboards : st.pcb_boards = [])
    (hchain : chainSegments (lines.map
        (fun l => (⟨l.start.getD ⟨0, 0⟩, l.end_.getD ⟨0, 0⟩⟩ : Seg)))
      = [⟨⟨a1, b1⟩, ⟨a2, b1⟩⟩, ⟨⟨a2, b1⟩, ⟨a2, b2⟩⟩,
         ⟨⟨a2, b2⟩, ⟨a1, b2⟩⟩, ⟨⟨a1, b2⟩, ⟨a1, b1⟩⟩]) :
    (createBoardOutline m lines st).pcb_boards
      = [⟨[applyToPoint m ⟨a1, b1⟩, applyToPoint m ⟨a2, b1⟩,
           applyToPoint m ⟨a2, b2⟩, applyToPoint m ⟨a1, b2⟩],
          abs m.a * |a2 - a1|, abs m.d * |b2 - b1|⟩] := by
  have hdx12 : |(applyToPoint m ⟨a1, b1⟩).x - (applyToPoint m ⟨a2, b1⟩).x|
      = |m.a| * |a2 - a1| := by
    have he : (applyToPoint m ⟨a1, b1⟩).x - (applyToPoint m ⟨a2, b1⟩).x
        = m.a * (a1 - a2) := by
      simp [applyToPoint]
      ring
    rw [he, abs_mul, abs_sub_comm a1 a2]
  have hdy23 : |(applyToPoint m ⟨a2, b1⟩).y - (applyToPoint m ⟨a2, b2⟩).y|
      = |m.d| * |b2 - b1| := by
    have he : (applyToPoint m ⟨a2, b1⟩).y - (applyToPoint m ⟨a2, b2⟩).y
        = m.d * (b1 - b2) := by
      simp [applyToPoint]
      ring
    rw [he, abs_mul, abs_sub_comm b1 b2]
  have hdx34 : |(applyToPoint m ⟨a2, b2⟩).x - (applyToPoint m ⟨a1, b2⟩).x|
      = |m.a| * |a2 - a1| := by
    have he : (applyToPoint m ⟨a2, b2⟩).x - (applyToPoint m ⟨a1, b2⟩).x
        = m.a * (a2 - a1) := by
      simp [applyToPoint]
      ring
    rw [he, abs_mul]
  have h12 := pointsEqual_false_of_dx _ _ (hdx12 ▸ ha)
  have h23 := pointsEqual_false_of_dy _ _ (hdy23 ▸ hd)
  have h34 := pointsEqual_false_of_dx _ _ (hdx34 ▸ ha)
  have hbp := buildPoints_rect m ⟨a1, b1⟩ ⟨a2, b1⟩ ⟨a2, b2⟩ ⟨a1, b2⟩ h12 h23 h34
  have hw : calculateWidth [applyToPoint m ⟨a1, b1⟩, applyToPoint m ⟨a2, b1⟩,
      applyToPoint m ⟨a2, b2⟩, applyToPoint m ⟨a1, b2⟩] = abs m.a * |a2 - a1| := by
    simp only [calculateWidth, List.map, applyToPoint, hc, zero_mul, add_zero]
    rw [spread_last_pair, show m.a * a2 + m.e - (m.a * a1 + m.e)
      = m.a * (a2 - a1) by ring, abs_mul]
  have hh : calculateHeight [applyToPoint m ⟨a1, b1⟩, applyToPoint m ⟨a2, b1⟩,
      applyToPoint m ⟨a2, b2⟩, applyToPoint m ⟨a1, b2⟩] = abs m.d * |b2 - b1| := by
    simp only [calculateHeight, List.map, applyToPoint, hb, zero_mul, zero_add]
    rw [spread_first_pair, show m.d * b2 + m.f - (m.d * b1 + m.f)
      = m.d * (b2 - b1) by ring, abs_mul]
  simp only [createBoardOutline, hchain, hbp, hboards, hw, hh]

/-- `createBoardOutline` on a chain that walks the rectangle y-edge-first. -/
lemma createBoardOutline_yfirst (m : Mat) (a1 a2 b1 b2 : ℚ) (st : PcbState)
    (lines : List GrLine) (hb : m.b = 0) (hc : m.c = 0)
    (ha : 1 / 1000 ≤ |m.a| * |a2 - a1|) (hd : 1 / 1000 ≤ |m.d| * |b2 - b1|)
    (hboards : st.pcb_boards = [])
    (hchain : chainSegments (lines.map
        (fun l => (⟨l.start.getD ⟨0, 0⟩, l.end_.getD ⟨0, 0⟩⟩ : Seg)))
      = [⟨⟨a1, b1⟩, ⟨a1, b2⟩⟩, ⟨⟨a1, b2⟩, ⟨a2, b2⟩⟩,
         ⟨⟨a2, b2⟩, ⟨a2, b1⟩⟩, ⟨⟨a2, b1⟩, ⟨a1, b1⟩⟩]) :
    (createBoardOutline m lines st).pcb_boards
      = [⟨[applyToPoint m ⟨a1, b1⟩, applyToPoint m ⟨a1, b2⟩,
           applyToPoint m ⟨a2, b2⟩, applyToPoint m ⟨a2, b1⟩],
          abs m.a * |a2 - a1|, abs m.d * |b2 - b1|⟩] := by
  have hdy12 : |(applyToPoint m ⟨a1, b1⟩).y - (applyToPoint m ⟨a1, b2⟩).y|
      = |m.d| * |b2 - b1| := by
    have he : (applyToPoint m ⟨a1, b1⟩).y - (applyToPoint m ⟨a1, b2⟩).y
        = m.d * (b1 - b2) := by
      simp [applyToPoint]
      ring
    rw [he, abs_mul, abs_sub_comm b1 b2]
  have hdx23 : |(applyToPoint m ⟨a1, b2⟩).x - (applyToPoint m ⟨a2, b2⟩).x|
      = |m.a| * |a2 - a1| := by
    have he : (applyToPoint m ⟨a1, b2⟩).x - (applyToPoint m ⟨a2, b2⟩).x
        = m.a * (a1 - a2) := by
      simp [applyToPoint]
      ring
    rw [he, abs_mul, abs_sub_comm a1 a2]
  have hdy34 : |(applyToPoint m ⟨a2, b2⟩).y - (applyToPoint m ⟨a2, b1⟩).y|
      = |m.d| * |b2 - b1| := by
    have he : (applyToPoint m ⟨a2, b2⟩).y - (applyToPoint m ⟨a2, b1⟩).y
        = m.d * (b2 - b1) := by
      simp [applyToPoint]
      ring
    rw [he, abs_mul]
  have h12 := pointsEqual_false_of_dy _ _ (hdy12 ▸ hd)
  have h23 := pointsEqual_false_of_dx _ _ (hdx23 ▸ ha)
  have h34 := pointsEqual_false_of_dy _ _ (hdy34 ▸ hd)
  have hbp := buildPoints_rect m ⟨a1, b1⟩ ⟨a1, b2⟩ ⟨a2, b2⟩ ⟨a2, b1⟩ h12 h23 h34
  have hw : calculateWidth [applyToPoint m ⟨a1, b1⟩, applyToPoint m ⟨a1, b2⟩,
      applyToPoint m ⟨a2, b2⟩, applyToPoint m ⟨a2, b1⟩] = abs m.a * |a2 - a1| := by
    simp only [calculateWidth, List.map, applyToPoint, hc, zero_mul, add_zero]
    rw [spread_first_pair, show m.a * a2 + m.e - (m.a * a1 + m.e)
      = m.a * (a2 - a1) by ring, abs_mul]
  have hh : calculateHeight [applyToPoint m ⟨a1, b1⟩, applyToPoint m ⟨a1, b2⟩,
      applyToPoint m ⟨a2, b2⟩, applyToPoint m ⟨a2, b1⟩] = abs m.d * |b2 - b1| := by
    simp only [calculateHeight, List.map, applyToPoint, hb, zero_mul, zero_add]
    rw [spread_last_pair, show m.d * b2 + m.f - (m.d * b1 + m.f)
      = m.d * (b2 - b1) by ring, abs_mul]
  simp only [createBoardOutline, hchain, hbp, hboards, hw, hh]

/-- The four edge-cut line segments of an axis-aligned rectangle, listed in
cyclic order. -/
def rectLines (x1 x2 y1 y2 : ℚ) : List GrLine :=
  [⟨["Edge.Cuts"], some ⟨x1, y1⟩, some ⟨x2, y1⟩, none⟩,
   ⟨["Edge.Cuts"], some ⟨x2, y1⟩, some ⟨x2, y2⟩, none⟩,
   ⟨["Edge.Cuts"], some ⟨x2, y2⟩, some ⟨x1, y2⟩, none⟩,
   ⟨["Edge.Cuts"], some ⟨x1, y2⟩, some ⟨x1, y1⟩, none⟩]

lemma createBoardOutline_rect (m : Mat) (x1 x2 y1 y2 : ℚ) (st : PcbState)
    (hb : m.b = 0) (hc : m.c = 0)
    (ha : 1 / 1000 ≤ |m.a| * (x2 - x1)) (hd : 1 / 1000 ≤ |m.d| * (y2 - y1))
    (hboards : st.pcb_boards = []) :
    (createBoardOutline m (rectLines x1 x2 y1 y2) st).pcb_boards
      = [⟨[applyToPoint m ⟨x1, y1⟩, applyToPoint m ⟨x2, y1⟩,
           applyToPoint m ⟨x2, y2⟩, applyToPoint m ⟨x1, y2⟩],
          abs m.a * (x2 - x1), abs m.d * (y2 - y1)⟩] := by
  have hx2 : (0 : ℚ) < x2 - x1 := by nlinarith [abs_nonneg m.a]
  have hy2 : (0 : ℚ) < y2 - y1 := by nlinarith [abs_nonneg m.d]
  have hdx12 : |(applyToPoint m ⟨x1, y1⟩).x - (applyToPoint m ⟨x2, y1⟩).x|
      = |m.a| * (x2 - x1) := by
    have he : (applyToPoint m ⟨x1, y1⟩).x - (applyToPoint m ⟨x2, y1⟩).x
        = m.a * (x1 - x2) := by
      simp [applyToPoint]
      ring
    rw [he, abs_mul, show |x1 - x2| = x2 - x1 by
      rw [abs_sub_comm, abs_of_pos hx2]]
  have hdy23 : |(applyToPoint m ⟨x2, y1⟩).y - (applyToPoint m ⟨x2, y2⟩).y|
      = |m.d| * (y2 - y1) := by
    have he : (applyToPoint m ⟨x2, y1⟩).y - (applyToPoint m ⟨x2, y2⟩).y
        = m.d * (y1 - y2) := by
      simp [applyToPoint]
      ring
    rw [he, abs_mul, show |y1 - y2| = y2 - y1 by
      rw [abs_sub_comm, abs_of_pos hy2]]
  have hdx34 : |(applyToPoint m ⟨x2, y2⟩).x - (applyToPoint m ⟨x1, y2⟩).x|
      = |m.a| * (x2 - x1) := by
    have he : (applyToPoint m ⟨x2, y2⟩).x - (applyToPoint m ⟨x1, y2⟩).x
        = m.a * (x2 - x1) := by
      simp [applyToPoint]
      ring
    rw [he, abs_mul, abs_of_pos hx2]
  have h12 := pointsEqual_false_of_dx _ _ (hdx12 ▸ ha)
  have h23 := pointsEqual_false_of_dy _ _ (hdy23 ▸ hd)
  have h34 := pointsEqual_false_of_dx _ _ (hdx34 ▸ ha)
  have hseg : (rectLines x1 x2 y1 y2).map
      (fun l => (⟨l.start.getD ⟨0, 0⟩, l.end_.getD ⟨0, 0⟩⟩ : Seg))
      = [⟨⟨x1, y1⟩, ⟨x2, y1⟩⟩, ⟨⟨x2, y1⟩, ⟨x2, y2⟩⟩,
         ⟨⟨x2, y2⟩, ⟨x1, y2⟩⟩, ⟨⟨x1, y2⟩, ⟨x1, y1⟩⟩] := by
    simp [rectLines]
  have hbp := buildPoints_rect m ⟨x1, y1⟩ ⟨x2, y1⟩ ⟨x2, y2⟩ ⟨x1, y2⟩ h12 h23 h34
  have hw : calculateWidth [applyToPoint m ⟨x1, y1⟩, applyToPoint m ⟨x2, y1⟩,
      applyToPoint m ⟨x2, y2⟩, applyToPoint m ⟨x1, y2⟩] = abs m.a * (x2 - x1) := by
    simp only [calculateWidth, List.map, applyToPoint, hc, zero_mul, add_zero]
    rw [spread_last_pair, show m.a * x2 + m.e - (m.a * x1 + m.e)
      = m.a * (x2 - x1) by ring, abs_mul, abs_of_pos hx2]
  have hh : calculateHeight [applyToPoint m ⟨x1, y1⟩, applyToPoint m ⟨x2, y1⟩,
      applyToPoint m ⟨x2, y2⟩, applyToPoint m ⟨x1, y2⟩] = abs m.d * (y2 - y1) := by
    simp only [calculateHeight, List.map, applyToPoint, hb, zero_mul, zero_add]
    rw [spread_first_pair, show m.d * y2 + m.f - (m.d * y1 + m.f)
      = m.d * (y2 - y1) by ring, abs_mul, abs_of_pos hy2]
  simp only [createBoardOutline, hseg, chain_rect, hbp, hboards, hw, hh]

/-- C9 (amended): every presentation — any segment order, either
orientation of each segment — of a 4-segment closed axis-aligned rectangle
whose endpoints match exactly, processed under an axis-aligned transform
with scale magnitudes 1 and with both dimensions at least the 0.001
matching tolerance, reconstructs to exactly one board record whose
polyline has 4 points (satisfying the claimed "4 or 5") and whose bounding
box — max(x) − min(x) and max(y) − min(y) over the emitted points — equals
the rectangle's width and height; for a transform of scale magnitude s the
bounding box is instead s times the rectangle's dimensions. -/
theorem board_outline_rect_spec (m : Mat) (x1 x2 y1 y2 : ℚ) (st : PcbState)
    (lines : List GrLine)
    (hb : m.b = 0) (hc : m.c = 0) (ha1 : |m.a| = 1) (hd1 : |m.d| = 1)
    (hx : 1 / 1000 ≤ x2 - x1) (hy : 1 / 1000 ≤ y2 - y1)
    (hboards : st.pcb_boards = [])
    (hlines : lines ∈ rectLineArrangements x1 x2 y1 y2) :
    (createBoardOutline m lines st).pcb_boards.map
        (fun b => (b.outline.length, b.width, b.height))
      = [(4, x2 - x1, y2 - y1)] := by
  obtain ⟨segs, hsegs, rfl⟩ := List.mem_map.mp hlines
  have hmap : (segs.map lineOfSeg).map
      (fun l => (⟨l.start.getD ⟨0, 0⟩, l.end_.getD ⟨0, 0⟩⟩ : Seg)) = segs := by
    rw [List.map_map,
      show ((fun l => (⟨l.start.getD ⟨0, 0⟩, l.end_.getD ⟨0, 0⟩⟩ : Seg))
          ∘ lineOfSeg) = id from funext fun s => rfl,
      List.map_id]
  have h8 := chain_cases x1 x2 y1 y2 hx hy segs hsegs
  have haw1 : abs m.a * |x2 - x1| = x2 - x1 := by
    rw [ha1, one_mul, abs_of_nonneg (by linarith)]
  have haw2 : abs m.a * |x1 - x2| = x2 - x1 := by
    rw [abs_sub_comm]
    exact haw1
  have hdw1 : abs m.d * |y2 - y1| = y2 - y1 := by
    rw [hd1, one_mul, abs_of_nonneg (by linarith)]
  have hdw2 : abs m.d * |y1 - y2| = y2 - y1 := by
    rw [abs_sub_comm]
    exact hdw1
  have hta1 : (1 : ℚ) / 1000 ≤ abs m.a * |x2 - x1| := by
    rw [haw1]
    linarith
  have hta2 : (1 : ℚ) / 1000 ≤ abs m.a * |x1 - x2| := by
    rw [haw2]
    linarith
  have htd1 : (1 : ℚ) / 1000 ≤ abs m.d * |y2 - y1| := by
    rw [hdw1]
    linarith
  have htd2 : (1 : ℚ) / 1000 ≤ abs m.d * |y1 - y2| := by
    rw [hdw2]
    linarith
  simp only [List.mem_cons, List.not_mem_nil, or_false] at h8
  rcases h8 with h | h | h | h | h | h | h | h
  · rw [createBoardOutline_xfirst m x1 x2 y1 y2 st _ hb hc hta1 htd1 hboards
      (by rw [hmap]; exact h)]
    simp [haw1, hdw1]
  · rw [createBoardOutline_yfirst m x2 x1 y1 y2 st _ hb hc hta2 htd1 hboards
      (by rw [hmap]; exact h)]
    simp [haw2, hdw1]
  · rw [createBoardOutline_xfirst m x2 x1 y2 y1 st _ hb hc hta2 htd2 hboards
      (by rw [hmap]; exact h)]
    simp [haw2, hdw2]
  · rw [createBoardOutline_yfirst m x1 x2 y2 y1 st _ hb hc hta1 htd2 hboards
      (by rw [hmap]; exact h)]
    simp [haw1, hdw2]
  · rw [createBoardOutline_xfirst m x2 x1 y1 y2 st _ hb hc hta2 htd1 hboards
      (by rw [hmap]; exact h)]
    simp [haw2, hdw1]
  · rw [createBoardOutline_yfirst m x1 x2 y1 y2 st _ hb hc hta1 htd1 hboards
      (by rw [hmap]; exact h)]
    simp [haw1, hdw1]
  · rw [createBoardOutline_xfirst m x1 x2 y2 y1 st _ hb hc hta1 htd2 hboards
      (by rw [hmap]; exact h)]
    simp [haw1, hdw2]
  · rw [createBoardOutline_yfirst m x2 x1 y2 y1 st _ hb hc hta2 htd2 hboards
      (by rw [hmap]; exact h)]
    simp [haw2, hdw2]

/-- Empty store/context used by witnesses. -/
def pcbStateEmpty : PcbState :=
  { kicadPcb := none, k2cMatPcb := none, netNumToName := none,
    footprintUuidToComponentId := [], footprintUuidToSourceComponentId := [],
    processedNets := [], source_ports := [], source_traces := [], pcb_vias := [],
    pcb_boards := [], pcb_silkscreen_paths := [], pcb_silkscreen_texts := [],
    pcb_smtpads := [], pcb_plated_holes := [], pcb_holes := [], pcb_ports := [],
    stats := none }

/-- The standard unit-scale Y-flip transform. -/
def matFlip : Mat := ⟨1, 0, 0, -1, 0, 0⟩

/-- Witness for the amended C9 on the unit square under the Y-flip
transform, with the edges given in cyclic order (the first of the 384
covered presentations). -/
theorem board_outline_rect_spec_witness :
    (createBoardOutline matFlip (rectLines 0 1 0 1) pcbStateEmpty).pcb_boards.map
        (fun b => (b.outline.length, b.width, b.height))
      = [(4, 1 - 0, 1 - 0)] :=
  board_outline_rect_spec matFlip 0 1 0 1 pcbStateEmpty (rectLines 0 1 0 1)
    rfl rfl (by norm_num [matFlip]) (by norm_num [matFlip]) (by norm_num)
    (by norm_num) rfl (by decide)

/-- A transform that doubles both axes. -/
def matDouble : Mat := ⟨2, 0, 0, 2, 0, 0⟩

/-- Counterexample to C9 as stated: the emitted points are transformed, so
under a doubling transform the unit square's reconstructed bounding box is
2 × 2, not the rectangle's 1 × 1. -/
theorem board_outline_bbox_cex :
    ((createBoardOutline matDouble (rectLines 0 1 0 1) pcbStateEmpty).pcb_boards.map
        (·.width) = [2])
      ∧ ((2 : ℚ) ≠ 1) := by
  have h := createBoardOutline_rect matDouble 0 1 0 1 pcbStateEmpty rfl rfl
    (by norm_num [matDouble]) (by norm_num [matDouble]) rfl
  constructor
  · rw [h]
    norm_num [matDouble]
  · norm_num

/-- The info record passed to `createPcbPort` (process-ports.ts);
`layers` entries are `none` when the JS value is the falsy result of
`determineLayerFromLayers`. -/
structure PadPortInfo where
  padNumber : String
  padType : String
  layers : List (Option String)
  position : Pt

/-- `createPcbPort` (process-ports.ts lines 11-38).  The helper
`determineLayerFromLayers` is defined outside the given sources, so it is
an explicit function parameter `detLayer`; a falsy return (`null` or the
empty string) is modelled as `none`. -/
def createPcbPort (detLayer : List (Option String) → Option String)
    (st : PcbState) (componentId : String) (padInfo : PadPortInfo) :
    PcbState × Bool :=
  match detLayer padInfo.layers with
  | none => (st, false)
  | some portLayer =>
    let sourcePortId := componentId ++ "_port_" ++ padInfo.padNumber
    ({ st with pcb_ports := st.pcb_ports ++
        [{ pcb_component_id := componentId, source_port_id := sourcePortId,
           x := padInfo.position.x, y := padInfo.position.y,
           layers := [portLayer] }] }, true)

/-- `createSmdPad` (infer-component-type.ts lines 211-322): a custom-shape
pad with a nonempty `gr_poly` primitive becomes a polygon pad (extraction
negates each point's y); otherwise a circle/rect pad, `roundrect` adding a
corner radius when the ratio is present. -/
def createSmdPad (detLayer : List (Option String) → Option String)
    (st : PcbState) (pad : FpPad) (componentId : String)
    (pos : Pt) (size : Pt) (shape : String) : PcbState :=
  let layer := detLayer (pad.layers.map some)
  match (if shape = "custom" then
      ((pad.primPolys.map (fun raw => raw.map (fun pt => (⟨pt.x, -pt.y⟩ : Pt)))).filter
        (fun pts => !pts.isEmpty)).head?
    else none) with
  | some points =>
    { st with
      pcb_smtpads := st.pcb_smtpads ++
        [{ pcb_component_id := componentId, shape := "polygon", layer := layer,
           port_hints := [pad.number], x := none, y := none, width := none,
           height := none, radius := none, corner_radius := none,
           points := some (points.map (fun pt => (⟨pos.x + pt.x, pos.y + pt.y⟩ : Pt))) }],
      stats := st.stats.map (fun s => { s with pads := s.pads + 1 }) }
  | none =>
    let base : Smtpad :=
      { pcb_component_id := componentId, shape := "rect", layer := layer,
        port_hints := [pad.number], x := some pos.x, y := some pos.y,
        width := some size.x, height := some size.y, radius := none,
        corner_radius := none, points := none }
    let smtpad :=
      if shape = "circle" then
        { base with shape := "circle", radius := some (max size.x size.y / 2) }
      else if shape = "rect" ∨ shape = "roundrect" then
        match (if shape = "roundrect" then pad.roundrectRatio else none) with
        | some ratio =>
          { base with corner_radius := some (min size.x size.y * ratio / 2) }
        | none => base
      else base
    { st with
      pcb_smtpads := st.pcb_smtpads ++ [smtpad],
      stats := st.stats.map (fun s => { s with pads := s.pads + 1 }) }

/-- `createPlatedHole` (infer-component-type.ts lines 326-419). -/
def createPlatedHole (st : PcbState) (pad : FpPad) (componentId : String)
    (pos : Pt) (size : Pt) (drill : Option DrillSpec) (shape : String)
    (rotation : ℚ) : PcbState :=
  let holeDiameter :=
    match drill with
    | some (DrillSpec.obj diameter x _) => jsOrQ diameter (jsOrQ x (4 / 5))
    | some (DrillSpec.num v) => jsOrQ (some v) (4 / 5)
    | none => 4 / 5
  let normalizedRotation0 := jsFmod rotation 360
  let normalizedRotation :=
    if normalizedRotation0 < 0 then normalizedRotation0 + 360 else normalizedRotation0
  let shouldSwapDimensions :=
    (45 ≤ normalizedRotation ∧ normalizedRotation < 135)
      ∨ (225 ≤ normalizedRotation ∧ normalizedRotation < 315)
  let outer : Pt :=
    if shouldSwapDimensions ∧ shape = "oval" then ⟨size.y, size.x⟩
    else ⟨size.x, size.y⟩
  let base : PlatedHole :=
    { pcb_component_id := componentId, x := pos.x, y := pos.y,
      port_hints := [pad.number], shape := none, hole_diameter := none,
      outer_diameter := none, hole_width := none, hole_height := none,
      outer_width := none, outer_height := none, hole_shape := none,
      pad_shape := none, rect_pad_width := none, rect_pad_height := none,
      layers := [] }
  let platedHole :=
    if shape = "circle" then
      { base with
        shape := some "circle",
        hole_diameter := some holeDiameter,
        outer_diameter := some (max outer.x outer.y),
        layers := ["top", "bottom"] }
    else if shape = "oval" then
      { base with
        shape := some "pill",
        hole_width := some holeDiameter,
        hole_height := some holeDiameter,
        outer_width := some outer.x,
        outer_height := some outer.y,
        layers := ["top", "bottom"] }
    else if shape = "rect" ∨ shape = "square" then
      { base with
        shape := some "pill_hole_with_rect_pad",
        hole_shape := some "circle",
        pad_shape := some "rect",
        hole_width := some holeDiameter,
        hole_height := some holeDiameter,
        rect_pad_width := some outer.x,
        rect_pad_height := some outer.y,
        layers := ["top", "bottom"] }
    else base
  { st with
    pcb_plated_holes := st.pcb_plated_holes ++ [platedHole],
    stats := st.stats.map (fun s => { s with pads := s.pads + 1 }) }

/-- `createNpthHole` (infer-component-type.ts lines 423-439); `pad` and
`componentId` are received but unused, as in the source.  In
`drill?.diameter || drill || 1.0`, an object drill without a truthy
diameter falls through to the object itself (`hole_diameter = none` in the
model). -/
def createNpthHole (st : PcbState) (pad : FpPad) (componentId : String)
    (pos : Pt) (drill : Option DrillSpec) : PcbState :=
  let holeDiameter : Option ℚ :=
    match drill with
    | some (DrillSpec.obj diameter _ _) =>
      match diameter with
      | some dv => if dv = 0 then none else some dv
      | none => none
    | some (DrillSpec.num v) => some (jsOrQ (some v) 1)
    | none => some 1
  { st with pcb_holes := st.pcb_holes ++
      [{ x := pos.x, y := pos.y, hole_diameter := holeDiameter,
         hole_shape := "circle" }] }

/-- `processPad` (infer-component-type.ts lines 101-206). -/
def processPad (ops : TrigOps) (detLayer : List (Option String) → Option String)
    (st : PcbState) (pad : FpPad) (componentId : String)
    (kicadComponentPos : Pt) (componentRotation : ℚ) : PcbState :=
  match st.k2cMatPcb with
  | none => st
  | some mat =>
    let padAt := pad.at_.getD ⟨0, 0, none⟩
    let padType := jsOrStr pad.padTypeF (jsOrStr pad.typeF "thru_hole")
    let padShape := jsOrStr pad.shape "circle"
    let padRotation := jsOrQ padAt.angle 0
    let rotationRad := -componentRotation * ops.pi / 180
    let rotatedPadX := padAt.x * ops.cos rotationRad - padAt.y * ops.sin rotationRad
    let rotatedPadY := padAt.x * ops.sin rotationRad + padAt.y * ops.cos rotationRad
    let globalPos := applyToPoint mat
      ⟨kicadComponentPos.x + rotatedPadX, kicadComponentPos.y + rotatedPadY⟩
    let size : Pt := ⟨jsOrQ pad.sizeW 1, jsOrQ pad.sizeH 1⟩
    let drill := pad.drill
    let totalRotation := -componentRotation - padRotation
    let stPort :=
      match pad.number with
      | some padNumber =>
        if padNumber = "" then st
        else
          (createPcbPort detLayer st componentId
            { padNumber := padNumber, padType := padType,
              layers := if padType = "smd" then [detLayer (pad.layers.map some)]
                else [],
              position := globalPos }).1
      | none => st
    if padType = "smd" then
      createSmdPad detLayer stPort pad componentId globalPos size padShape
    else if padType = "np_thru_hole" then
      createNpthHole stPort pad componentId globalPos drill
    else
      createPlatedHole stPort pad componentId globalPos size drill padShape
        totalRotation

lemma createSmdPad_effect (detLayer : List (Option String) → Option String)
    (st : PcbState) (pad : FpPad) (componentId : String)
    (pos : Pt) (size : Pt) (shape : String) :
    (createSmdPad detLayer st pad componentId pos size shape).pcb_ports
        = st.pcb_ports
    ∧ (createSmdPad detLayer st pad componentId pos size shape).pcb_smtpads.length
        = st.pcb_smtpads.length + 1
    ∧ (createSmdPad detLayer st pad componentId pos size shape).pcb_plated_holes
        = st.pcb_plated_holes
    ∧ (createSmdPad detLayer st pad componentId pos size shape).pcb_holes
        = st.pcb_holes := by
  refine ⟨?_, ?_, ?_, ?_⟩ <;>
    · unfold createSmdPad
      split <;> simp

lemma createPlatedHole_effect (st : PcbState) (pad : FpPad)
    (componentId : String) (pos : Pt) (size : Pt) (drill : Option DrillSpec)
    (shape : String) (rotation : ℚ) :
    (createPlatedHole st pad componentId pos size drill shape rotation).pcb_ports
        = st.pcb_ports
    ∧ (createPlatedHole st pad componentId pos size drill shape
        rotation).pcb_smtpads = st.pcb_smtpads
    ∧ (createPlatedHole st pad componentId pos size drill shape
        rotation).pcb_plated_holes.length = st.pcb_plated_holes.length + 1
    ∧ (createPlatedHole st pad componentId pos size drill shape
        rotation).pcb_holes = st.pcb_holes := by
  refine ⟨rfl, rfl, ?_, rfl⟩
  simp [createPlatedHole]

lemma createNpthHole_effect (st : PcbState) (pad : FpPad)
    (componentId : String) (pos : Pt) (drill : Option DrillSpec) :
    (createNpthHole st pad componentId pos drill).pcb_ports = st.pcb_ports
    ∧ (createNpthHole st pad componentId pos drill).pcb_smtpads = st.pcb_smtpads
    ∧ (createNpthHole st pad componentId pos drill).pcb_plated_holes
        = st.pcb_plated_holes
    ∧ (createNpthHole st pad componentId pos drill).pcb_holes.length
        = st.pcb_holes.length + 1 := by
  refine ⟨rfl, rfl, rfl, ?_⟩
  simp [createNpthHole]

/-- C10: for a pad whose number field is absent (with the PCB transform
present), pad processing inserts no pcb_port record, yet still inserts
exactly one geometry record — the combined count of SMD pads, plated holes
and non-plated holes grows by exactly 1. -/
theorem pad_missing_number_geometry (ops : TrigOps)
    (detLayer : List (Option String) → Option String) (st : PcbState)
    (pad : FpPad) (componentId : String) (kicadComponentPos : Pt)
    (componentRotation : ℚ) (mat : Mat)
    (hmat : st.k2cMatPcb = some mat) (hnum : pad.number = none) :
    (processPad ops detLayer st pad componentId kicadComponentPos
        componentRotation).pcb_ports = st.pcb_ports
    ∧ (processPad ops detLayer st pad componentId kicadComponentPos
          componentRotation).pcb_smtpads.length
        + (processPad ops detLayer st pad componentId kicadComponentPos
            componentRotation).pcb_plated_holes.length
        + (processPad ops detLayer st pad componentId kicadComponentPos
            componentRotation).pcb_holes.length
      = st.pcb_smtpads.length + st.pcb_plated_holes.length
        + st.pcb_holes.length + 1 := by
  unfold processPad
  simp only [hmat, hnum]
  split
  · obtain ⟨h1, h2, h3, h4⟩ := createSmdPad_effect detLayer st pad componentId _ _ _
    refine ⟨h1, ?_⟩
    rw [h2, h3, h4]
    omega
  · split
    · obtain ⟨h1, h2, h3, h4⟩ := createNpthHole_effect st pad componentId _ _
      refine ⟨h1, ?_⟩
      rw [h2, h3, h4]
      omega
    · obtain ⟨h1, h2, h3, h4⟩ :=
        createPlatedHole_effect st pad componentId _ _ _ _ _
      refine ⟨h1, ?_⟩
      rw [h2, h3, h4]
      omega

/-- A concrete SMD pad with no number, for the C10 witness. -/
def padNoNum : FpPad :=
  { number := none, net := none, at_ := none, padTypeF := some "smd",
    typeF := none, shape := some "rect", sizeW := some 1, sizeH := some 2,
    drill := none, roundrectRatio := none, layers := ["F.Cu"], primPolys := [] }

/-- A concrete PCB state with the transform present, for the C10 witness. -/
def pcbStatePad10 : PcbState := { pcbStateEmpty with k2cMatPcb := some matFlip }

/-- Witness for C10 on a concrete numberless SMD pad. -/
theorem pad_missing_number_geometry_witness :
    pcbStatePad10.k2cMatPcb = some matFlip ∧ padNoNum.number = none
    ∧ ((processPad arcOpsStub (fun _ => some "top") pcbStatePad10 padNoNum
          "comp" ⟨0, 0⟩ 0).pcb_ports = pcbStatePad10.pcb_ports
        ∧ (processPad arcOpsStub (fun _ => some "top") pcbStatePad10 padNoNum
              "comp" ⟨0, 0⟩ 0).pcb_smtpads.length
            + (processPad arcOpsStub (fun _ => some "top") pcbStatePad10 padNoNum
                "comp" ⟨0, 0⟩ 0).pcb_plated_holes.length
            + (processPad arcOpsStub (fun _ => some "top") pcbStatePad10 padNoNum
                "comp" ⟨0, 0⟩ 0).pcb_holes.length
          = pcbStatePad10.pcb_smtpads.length
            + pcbStatePad10.pcb_plated_holes.length
            + pcbStatePad10.pcb_holes.length + 1) :=
  ⟨rfl, rfl, pad_missing_number_geometry arcOpsStub (fun _ => some "top")
    pcbStatePad10 padNoNum "comp" ⟨0, 0⟩ 0 matFlip rfl rfl⟩

/-- C5: each modelled pass's step, run with a required precondition absent
from the shared context (no parsed design tree, no precomputed affine
transform, or no net-name table, per the pass's own guard), returns the
state unchanged — zero records inserted, no lookup table updated — and
reports finished. -/
theorem step_missing_precondition_noop (ops : TrigOps) (ssch : SchState)
    (st : PcbState) :
    (ssch.kicadSch = none ∨ ssch.k2cMatSch = none →
        schStep ops ssch = (ssch, true))
    ∧ (st.kicadPcb = none ∨ st.netNumToName = none →
        netsStep st = (st, true))
    ∧ (st.kicadPcb = none ∨ st.netNumToName = none →
        tracesStep st = (st, true))
    ∧ (st.kicadPcb = none ∨ st.k2cMatPcb = none →
        graphicsStep ops st = (st, true))
    ∧ (st.kicadPcb = none ∨ st.k2cMatPcb = none ∨ st.netNumToName = none →
        viasStep st = (st, true)) := by
  refine ⟨?_, ?_, ?_, ?_, ?_⟩
  · rintro (h | h)
    · simp [schStep, h]
    · cases hs : ssch.kicadSch <;> simp [schStep, hs, h]
  · rintro (h | h)
    · simp [netsStep, h]
    · cases h1 : st.kicadPcb <;> simp [netsStep, h1, h]
  · rintro (h | h)
    · simp [tracesStep, h]
    · cases h1 : st.kicadPcb <;> simp [tracesStep, h1, h]
  · rintro (h | h)
    · simp [graphicsStep, h]
    · cases h1 : st.kicadPcb <;> simp [graphicsStep, h1, h]
  · rintro (h | h | h)
    · simp [viasStep, h]
    · cases h1 : st.kicadPcb <;> simp [viasStep, h1, h]
    · cases h1 : st.kicadPcb <;> cases h2 : st.k2cMatPcb <;>
        simp [viasStep, h1, h2, h]

/-- A schematic-stage state with no parsed tree and no transform. -/
def schStateNone : SchState :=
  { kicadSch := none, k2cMatSch := none, processedSymbols := [],
    source_components := [], schematic_components := [],
    schematic_ports := [], symbolUuidToComponentId := [],
    statsComponents := none }

/-- Witness for C5: every modelled pass no-ops on the all-empty states. -/
theorem step_missing_precondition_noop_witness :
    schStep arcOpsStub schStateNone = (schStateNone, true)
    ∧ netsStep pcbStateEmpty = (pcbStateEmpty, true)
    ∧ tracesStep pcbStateEmpty = (pcbStateEmpty, true)
    ∧ graphicsStep arcOpsStub pcbStateEmpty = (pcbStateEmpty, true)
    ∧ viasStep pcbStateEmpty = (pcbStateEmpty, true) :=
  ⟨(step_missing_precondition_noop arcOpsStub schStateNone pcbStateEmpty).1
      (Or.inl rfl),
   (step_missing_precondition_noop arcOpsStub schStateNone pcbStateEmpty).2.1
      (Or.inl rfl),
   (step_missing_precondition_noop arcOpsStub schStateNone pcbStateEmpty).2.2.1
      (Or.inl rfl),
   (step_missing_precondition_noop arcOpsStub schStateNone pcbStateEmpty).2.2.2.1
      (Or.inl rfl),
   (step_missing_precondition_noop arcOpsStub schStateNone pcbStateEmpty).2.2.2.2
      (Or.inl rfl)⟩
